import Mathlib

/-!
Verification development for the agent-monitor rust daemon.

The Rust sources are shallowly embedded: Rust `String`/`&str` values are
modelled as `List Char` (named `Str`), `i64`/`usize` as `Int`/`Nat` with
panicking operations returning `Option`, `f64` fields as `ℚ`, and
`chrono::DateTime<Utc>` as an integer count of nanoseconds since the epoch.
Each definition carries a comment pointing at the function of the source
tree it translates.
-/

/-- Rust strings are modelled as lists of unicode scalar values. -/
abbrev Str := List Char

/-- Rust `str::to_lowercase` (the observed inputs are ASCII, for which
`Char.toLower` agrees with the Rust per-character lowering). -/
def toLowerStr (s : Str) : Str := s.map Char.toLower

/-- Rust `str::contains(pat)`: `pat` occurs as a contiguous substring. -/
def containsSub (haystack pat : Str) : Bool :=
  haystack.tails.any (fun t => pat.isPrefixOf t)

/-- Splitting on the newline character, keeping empty segments
(the shape of Rust `str::split('\n')`). -/
def splitOnNl : Str → List Str
  | [] => [[]]
  | c :: rest =>
    let r := splitOnNl rest
    if c = '\n' then [] :: r
    else
      match r with
      | [] => [[c]]
      | h :: t => (c :: h) :: t

/-- Dropping one trailing carriage return, as Rust `str::lines` does per line. -/
def stripCR (l : Str) : Str :=
  if l.getLast? = some '\r' then l.dropLast else l

/-- Rust `str::lines`: split on `'\n'`, drop the final empty segment produced
by a terminating newline, strip one trailing `'\r'` from every line. -/
def rustLines (s : Str) : List Str :=
  let parts := splitOnNl s
  let parts := if parts.getLast? = some [] then parts.dropLast else parts
  parts.map stripCR

/-- Rust `content.lines().next().unwrap_or("")`. -/
def firstLine (s : Str) : Str := (rustLines s).headD []

/-- Rust `str::replace` for a one-character pattern and a
one-character replacement (the only uses in this code base). -/
def replaceChar (pat repl : Char) (s : Str) : Str :=
  s.map (fun c => if c = pat then repl else c)

/-- UTF-8 encoding of one scalar value (byte values as naturals). -/
def charUtf8Bytes (c : Char) : List Nat :=
  let v := c.toNat
  if v < 0x80 then [v]
  else if v < 0x800 then [0xC0 + v / 64, 0x80 + v % 64]
  else if v < 0x10000 then
    [0xE0 + v / 4096, 0x80 + v / 64 % 64, 0x80 + v % 64]
  else
    [0xF0 + v / 262144, 0x80 + v / 4096 % 64, 0x80 + v / 64 % 64, 0x80 + v % 64]

/-- UTF-8 byte sequence of a string (Rust `str::as_bytes`). -/
def utf8Bytes (s : Str) : List Nat := (s.map charUtf8Bytes).flatten

/-- Rust `str::len` — the length in UTF-8 bytes, not characters. -/
def utf8Len (s : Str) : Nat := (utf8Bytes s).length

/-! ## Data model (src/rust-daemon/src/models.rs) -/

/-- `models::AgentType`. -/
inductive AgentType where
  | claudeCode | cursor | aider | geminiCli | openaiCodex | custom
deriving DecidableEq

/-- `models::SessionStatus`. -/
inductive SessionStatus where
  | active | idle | completed | crashed | unknown
deriving DecidableEq

/-- `models::EventType`. -/
inductive EventType where
  | sessionStart | sessionEnd | promptReceived | responseGenerated | thinking
  | toolStart | toolComplete | toolExecuted | fileRead | fileModified
  | error | custom
deriving DecidableEq

/-- The Rust `Debug` rendering of `EventType`, as hashed by
`SessionEvent::new_with_stable_id` via `format!("{:?}", event_type)`. -/
def eventTypeDebug : EventType → Str
  | .sessionStart => "SessionStart".data
  | .sessionEnd => "SessionEnd".data
  | .promptReceived => "PromptReceived".data
  | .responseGenerated => "ResponseGenerated".data
  | .thinking => "Thinking".data
  | .toolStart => "ToolStart".data
  | .toolComplete => "ToolComplete".data
  | .toolExecuted => "ToolExecuted".data
  | .fileRead => "FileRead".data
  | .fileModified => "FileModified".data
  | .error => "Error".data
  | .custom => "Custom".data

/-- `chrono::DateTime<Utc>` as nanoseconds since the unix epoch. -/
structure UtcTime where
  nanos : Int
deriving DecidableEq

/-- `DateTime::timestamp_millis` — floor division of the nanosecond count
(chrono keeps a nonnegative sub-second part, so the result is the floor). -/
def UtcTime.timestampMillis (t : UtcTime) : Int := t.nanos.fdiv 1000000

/-- The little-endian two's-complement byte image of an `i64`, which is what
Rust `Hasher::write_i64` feeds to the hasher on this target. -/
def i64LeBytes (v : Int) : List Nat :=
  let u := (v.emod (2 ^ 64)).toNat
  [u % 256, u / 256 % 256, u / 256 ^ 2 % 256, u / 256 ^ 3 % 256,
   u / 256 ^ 4 % 256, u / 256 ^ 5 % 256, u / 256 ^ 6 % 256, u / 256 ^ 7 % 256]

/-- `std::collections::hash_map::DefaultHasher`, modelled by the byte stream
written into it. The standard library documents the hashing algorithm itself
as unspecified; it is a fixed deterministic function of this stream, and the
final `format!("evt_{:016x}", hasher.finish())` is a further deterministic
map, so the stream is the faithful abstraction of the resulting id for the
determinism and equality-based dedup properties proved below. -/
structure Hasher where
  bytes : List Nat
deriving DecidableEq

/-- `DefaultHasher::new()`. -/
def Hasher.new : Hasher := ⟨[]⟩

/-- `Hash for str`/`String`: write the UTF-8 bytes then a `0xFF` terminator. -/
def Hasher.writeStr (h : Hasher) (s : Str) : Hasher :=
  ⟨h.bytes ++ utf8Bytes s ++ [0xFF]⟩

/-- `Hash for i64`: write the 8 native-endian (little-endian) bytes. -/
def Hasher.writeI64 (h : Hasher) (v : Int) : Hasher :=
  ⟨h.bytes ++ i64LeBytes v⟩

/-- Event ids: `SessionEvent::new_with_stable_id` produces `evt_…` ids from
the hasher stream, `SessionEvent::new` draws a fresh UUID v4. -/
inductive EventId where
  | stable (bytes : List Nat)
  | randomUuid (n : Nat)
deriving DecidableEq

/-- The id computation of `SessionEvent::new_with_stable_id`
(models.rs lines 181-218): hash `session_id`, `timestamp.timestamp_millis()`,
`format!("{:?}", event_type)`, and, when present, the full content. -/
def stableId (session_id : Str) (event_type : EventType) (timestamp : UtcTime)
    (content : Option Str) : EventId :=
  let h := ((Hasher.new.writeStr session_id).writeI64 timestamp.timestampMillis).writeStr
    (eventTypeDebug event_type)
  let h := match content with
    | some c => h.writeStr c
    | none => h
  EventId.stable h.bytes

/-- `models::SessionEvent`.  `raw_data` is carried as its serialized JSON
text, which is how the store binds it. -/
structure SessionEvent where
  id : EventId
  session_id : Str
  event_type : EventType
  timestamp : UtcTime
  agent_type : AgentType
  content : Option Str
  working_directory : Option Str
  tool_name : Option Str
  file_path : Option Str
  tokens_input : Option Int
  tokens_output : Option Int
  error_message : Option Str
  raw_data : Option Str
deriving DecidableEq

/-- `SessionEvent::new_with_stable_id`. -/
def SessionEvent.newWithStableId (session_id : Str) (event_type : EventType)
    (agent_type : AgentType) (timestamp : UtcTime) (content : Option Str) :
    SessionEvent :=
  { id := stableId session_id event_type timestamp content
    session_id := session_id
    event_type := event_type
    timestamp := timestamp
    agent_type := agent_type
    content := content
    working_directory := none
    tool_name := none
    file_path := none
    tokens_input := none
    tokens_output := none
    error_message := none
    raw_data := none }

/-! ## Store (src/rust-daemon/src/storage.rs)

The `session_events` table is modelled as the list of its rows; `id` is the
primary key.  `created_at` bookkeeping columns (defaulted by the database and
never read back by `row_to_event`/`row_to_session`) are not modelled. -/

/-- `Storage::insert_event` — `INSERT OR IGNORE`: a row whose primary key is
already present leaves the table unchanged. -/
def insertEvent (table : List SessionEvent) (e : SessionEvent) :
    List SessionEvent :=
  if table.any (fun r => decide (r.id = e.id)) then table else table ++ [e]

/-- `n` repeated invocations of `Storage::insert_event` with the same event. -/
def insertEventN (table : List SessionEvent) (e : SessionEvent) : Nat → List SessionEvent
  | 0 => table
  | n + 1 => insertEvent (insertEventN table e n) e

/-- Number of rows of the event table carrying a given id. -/
def countId (table : List SessionEvent) (i : EventId) : Nat :=
  (table.filter (fun r => decide (r.id = i))).length

/-- Helper: the duplicate test of `insert_event` succeeds exactly when some
row already carries the id. -/
theorem countId_ne_zero_iff (t : List SessionEvent) (i : EventId) :
    countId t i ≠ 0 ↔ (t.any fun r => decide (r.id = i)) = true := by
  simp [countId, List.any_eq_true, List.length_eq_zero, List.filter_eq_nil_iff]

/-- Helper: inserting a fresh id appends one matching row. -/
theorem countId_append_self (t : List SessionEvent) (e : SessionEvent) :
    countId (t ++ [e]) e.id = countId t e.id + 1 := by
  simp [countId, List.filter_append]

/-- Helper: `insert_event` on a table already containing the id is the
identity. -/
theorem insertEvent_mem (t : List SessionEvent) (e : SessionEvent)
    (h : countId t e.id ≠ 0) : insertEvent t e = t := by
  rw [insertEvent, if_pos ((countId_ne_zero_iff t e.id).1 h)]

/-- Helper: `insert_event` on a table not containing the id appends the row. -/
theorem insertEvent_not_mem (t : List SessionEvent) (e : SessionEvent)
    (h : countId t e.id = 0) : insertEvent t e = t ++ [e] := by
  rw [insertEvent, if_neg]
  intro hany
  exact absurd ((countId_ne_zero_iff t e.id).2 hany) (by simp [h])

/-- C1. Stable-id idempotence: an event id built by `new_with_stable_id` is a
deterministic function of (`session_id`, timestamp truncated to milliseconds,
`event_kind`, full `content`) — equal inputs (the agent type and sub-millisecond
timestamp detail aside) yield equal ids — and invoking `Storage::insert_event`
with such an event any number of times ≥ 1 on a table not yet containing the id
leaves exactly one row with that id, later duplicate inserts being identity on
the table. -/
theorem c1_stable_id_idempotence :
    (∀ (sid : Str) (ek : EventType) (ak1 ak2 : AgentType) (ts1 ts2 : UtcTime)
        (c : Option Str), ts1.timestampMillis = ts2.timestampMillis →
        (SessionEvent.newWithStableId sid ek ak1 ts1 c).id
          = (SessionEvent.newWithStableId sid ek ak2 ts2 c).id)
    ∧ (∀ (table : List SessionEvent) (sid : Str) (ek : EventType)
        (ak : AgentType) (ts : UtcTime) (c : Option Str),
        countId table (stableId sid ek ts c) = 0 →
        ∀ n, 1 ≤ n →
        countId (insertEventN table (SessionEvent.newWithStableId sid ek ak ts c) n)
          (stableId sid ek ts c) = 1)
    ∧ (∀ (table : List SessionEvent) (sid : Str) (ek : EventType)
        (ak : AgentType) (ts : UtcTime) (c : Option Str),
        countId table (stableId sid ek ts c) ≠ 0 →
        insertEvent table (SessionEvent.newWithStableId sid ek ak ts c) = table) := by
  refine ⟨?_, ?_, ?_⟩
  · intro sid ek ak1 ak2 ts1 ts2 c h
    simp only [SessionEvent.newWithStableId, stableId, h]
  · intro table sid ek ak ts c h0 n hn
    induction n with
    | zero => omega
    | succ m ih =>
      rcases Nat.eq_zero_or_pos m with hm | hm
      · subst hm
        have he : (SessionEvent.newWithStableId sid ek ak ts c).id = stableId sid ek ts c := rfl
        simp only [insertEventN]
        rw [insertEvent_not_mem _ _ (by rw [he]; exact h0)]
        rw [← he, countId_append_self, he, h0]
      · have h1 := ih hm
        simp only [insertEventN]
        rw [insertEvent_mem _ _ (by
          show countId _ (SessionEvent.newWithStableId sid ek ak ts c).id ≠ 0
          have : (SessionEvent.newWithStableId sid ek ak ts c).id = stableId sid ek ts c := rfl
          rw [this, h1]
          omega)]
        exact h1
  · intro table sid ek ak ts c h
    exact insertEvent_mem _ _ h

/-- One concrete stable event used by the C1 witness. -/
def c1Event : SessionEvent :=
  SessionEvent.newWithStableId "s".data .promptReceived .claudeCode ⟨1500000⟩
    (some "hello".data)

/-- Witness for C1 at concrete inputs: the nanosecond timestamps 1500000 and
1999999 truncate to the same millisecond, and three inserts into the empty
table leave one row. -/
theorem c1_stable_id_idempotence_witness :
    (SessionEvent.newWithStableId "s".data .promptReceived .claudeCode ⟨1500000⟩
        (some "hello".data)).id
      = (SessionEvent.newWithStableId "s".data .promptReceived .cursor ⟨1999999⟩
        (some "hello".data)).id
    ∧ countId (insertEventN [] c1Event 3)
        (stableId "s".data .promptReceived ⟨1500000⟩ (some "hello".data)) = 1
    ∧ insertEvent [c1Event] c1Event = [c1Event] :=
  ⟨c1_stable_id_idempotence.1 "s".data .promptReceived .claudeCode .cursor
      ⟨1500000⟩ ⟨1999999⟩ (some "hello".data) (by decide),
   c1_stable_id_idempotence.2.1 [] "s".data .promptReceived .claudeCode
      ⟨1500000⟩ (some "hello".data) (by decide) 3 (by decide),
   c1_stable_id_idempotence.2.2 [c1Event] "s".data .promptReceived .claudeCode
      ⟨1500000⟩ (some "hello".data) (by decide)⟩

/-! ## Sessions and `upsert_session` (models.rs, storage.rs lines 110-163) -/

/-- `models::Session`.  `f64` fields are carried as rationals; `metadata` is
the string-keyed map (values as their serialized JSON text, which is how
`upsert_session` binds the whole map). -/
structure Session where
  id : Str
  agent_type : AgentType
  external_id : Str
  project_path : Str
  status : SessionStatus
  started_at : UtcTime
  last_activity_at : UtcTime
  ended_at : Option UtcTime
  duration_seconds : ℚ
  message_count : Int
  tool_call_count : Int
  file_operations : Int
  tokens_input : Int
  tokens_output : Int
  estimated_cost : ℚ
  model_id : Option Str
  pid : Option Int
  current_task : Option Str
  progress : ℚ
  metadata : List (Str × Str)
deriving DecidableEq

/-- The `ON CONFLICT(id) DO UPDATE SET` clause of `Storage::upsert_session`:
only status, last_activity_at, ended_at, duration_seconds, the counters, the
token/cost accumulators, current_task, progress and metadata are taken from
the excluded row; id, agent_type, external_id, project_path, started_at,
model_id and pid keep their stored values (`updated_at`, a bookkeeping column
never read back, is not modelled). -/
def conflictUpdate (r s : Session) : Session :=
  { r with
    status := s.status
    last_activity_at := s.last_activity_at
    ended_at := s.ended_at
    duration_seconds := s.duration_seconds
    message_count := s.message_count
    tool_call_count := s.tool_call_count
    file_operations := s.file_operations
    tokens_input := s.tokens_input
    tokens_output := s.tokens_output
    estimated_cost := s.estimated_cost
    current_task := s.current_task
    progress := s.progress
    metadata := s.metadata }

/-- `Storage::upsert_session`: insert by primary key, or apply the
`DO UPDATE` clause to the stored row with that key. -/
def upsertSession (db : List Session) (s : Session) : List Session :=
  if db.any (fun r => decide (r.id = s.id)) then
    db.map (fun r => if r.id = s.id then conflictUpdate r s else r)
  else db ++ [s]

/-- Lookup of the row with a given primary key. -/
def findSession (db : List Session) (i : Str) : Option Session :=
  db.find? (fun r => decide (r.id = i))

/-- Helper: the conflict update never touches the primary key. -/
theorem conflictUpdate_id (r s : Session) : (conflictUpdate r s).id = r.id := rfl

/-- Helper: updating a row twice with the same session is one update. -/
theorem conflictUpdate_idem (r s : Session) :
    conflictUpdate (conflictUpdate r s) s = conflictUpdate r s := rfl

/-- Helper: updating a row with itself is the identity. -/
theorem conflictUpdate_self (s : Session) : conflictUpdate s s = s := rfl

/-- Helper: after the update branch of `upsert_session`, lookup by the key
returns the stored row with the conflict update applied. -/
theorem find?_map_conflictUpdate (t : List Session) (s r : Session)
    (h : t.find? (fun x => decide (x.id = s.id)) = some r) :
    (t.map fun x => if x.id = s.id then conflictUpdate x s else x).find?
      (fun x => decide (x.id = s.id)) = some (conflictUpdate r s) := by
  induction t with
  | nil => simp at h
  | cons a t ih =>
    by_cases ha : a.id = s.id
    · rw [List.find?_cons_of_pos _ (by simpa using ha)] at h
      cases h
      simp only [List.map_cons, if_pos ha]
      exact List.find?_cons_of_pos _ (by simp [conflictUpdate_id, ha])
    · rw [List.find?_cons_of_neg _ (by simpa using ha)] at h
      simp only [List.map_cons, if_neg ha]
      rw [List.find?_cons_of_neg _ (by simpa using ha)]
      exact ih h

/-- Helper: the per-row function of the update branch keeps every key. -/
theorem updateRow_id (s x : Session) :
    ((fun x => if x.id = s.id then conflictUpdate x s else x) x).id = x.id := by
  by_cases h : x.id = s.id <;> simp [h, conflictUpdate_id]

/-- Helper: `upsert_session` is idempotent on the table. -/
theorem upsertSession_idem (db : List Session) (s : Session) :
    upsertSession (upsertSession db s) s = upsertSession db s := by
  by_cases hany : (db.any fun r => decide (r.id = s.id)) = true
  · have h1 : upsertSession db s
        = db.map fun x => if x.id = s.id then conflictUpdate x s else x := by
      rw [upsertSession, if_pos hany]
    have hany2 : ((db.map fun x => if x.id = s.id then conflictUpdate x s else x).any
        fun r => decide (r.id = s.id)) = true := by
      rcases List.any_eq_true.mp hany with ⟨x, hx, hpx⟩
      refine List.any_eq_true.mpr ⟨_, List.mem_map_of_mem _ hx, ?_⟩
      simpa [updateRow_id] using hpx
    rw [h1, upsertSession, if_pos hany2, List.map_map]
    refine List.map_congr_left fun x _ => ?_
    by_cases h : x.id = s.id
    · simp [Function.comp, h, conflictUpdate_id, conflictUpdate_idem]
    · simp [Function.comp, h]
  · have h1 : upsertSession db s = db ++ [s] := by
      rw [upsertSession, if_neg hany]
    have hany2 : ((db ++ [s]).any fun r => decide (r.id = s.id)) = true := by
      simp [List.any_append]
    rw [h1, upsertSession, if_pos hany2, List.map_append]
    have hdb : (db.map fun x => if x.id = s.id then conflictUpdate x s else x) = db := by
      have hall := List.any_eq_false.mp (Bool.not_eq_true _ ▸ hany)
      conv_rhs => rw [← List.map_id db]
      refine List.map_congr_left fun x hx => ?_
      have : ¬ x.id = s.id := by simpa using hall x hx
      simp [this]
    simp [hdb, conflictUpdate_self]

/-- C2. Upsert frame: when the session id already exists in the store,
`upsert_session` rewrites the stored row by `conflictUpdate`, which copies
exactly the mutable subset (status, last_activity_at, ended_at, duration,
counters, accumulators, current_task, progress, metadata) from the incoming
session and keeps the stored agent_type, external_id, project_path and
started_at (as well as model_id and pid); repeating the same upsert leaves
the table unchanged. -/
theorem c2_upsert_frame :
    (∀ (db : List Session) (s r : Session), findSession db s.id = some r →
      findSession (upsertSession db s) s.id = some (conflictUpdate r s)
      ∧ (conflictUpdate r s).agent_type = r.agent_type
      ∧ (conflictUpdate r s).external_id = r.external_id
      ∧ (conflictUpdate r s).project_path = r.project_path
      ∧ (conflictUpdate r s).started_at = r.started_at
      ∧ (conflictUpdate r s).status = s.status
      ∧ (conflictUpdate r s).last_activity_at = s.last_activity_at
      ∧ (conflictUpdate r s).ended_at = s.ended_at
      ∧ (conflictUpdate r s).duration_seconds = s.duration_seconds
      ∧ (conflictUpdate r s).message_count = s.message_count
      ∧ (conflictUpdate r s).tool_call_count = s.tool_call_count
      ∧ (conflictUpdate r s).file_operations = s.file_operations
      ∧ (conflictUpdate r s).tokens_input = s.tokens_input
      ∧ (conflictUpdate r s).tokens_output = s.tokens_output
      ∧ (conflictUpdate r s).estimated_cost = s.estimated_cost
      ∧ (conflictUpdate r s).current_task = s.current_task
      ∧ (conflictUpdate r s).progress = s.progress
      ∧ (conflictUpdate r s).metadata = s.metadata)
    ∧ ∀ (db : List Session) (s : Session),
      upsertSession (upsertSession db s) s = upsertSession db s := by
  refine ⟨fun db s r h => ⟨?_, rfl, rfl, rfl, rfl, rfl, rfl, rfl, rfl, rfl,
    rfl, rfl, rfl, rfl, rfl, rfl, rfl, rfl⟩, upsertSession_idem⟩
  have h' : db.find? (fun x => decide (x.id = s.id)) = some r := h
  have hpr := List.find?_some h'
  have hany : (db.any fun x => decide (x.id = s.id)) = true :=
    List.any_eq_true.mpr ⟨r, List.mem_of_find?_eq_some h', hpr⟩
  rw [findSession, upsertSession, if_pos hany]
  exact find?_map_conflictUpdate db s r h'

/-- Stored row used by the C2 witness. -/
def c2Stored : Session :=
  { id := "sess1".data, agent_type := .claudeCode, external_id := "e1".data,
    project_path := "/p".data, status := .active, started_at := ⟨0⟩,
    last_activity_at := ⟨0⟩, ended_at := none, duration_seconds := 0,
    message_count := 1, tool_call_count := 0, file_operations := 0,
    tokens_input := 10, tokens_output := 20, estimated_cost := 0,
    model_id := none, pid := none, current_task := none, progress := 0,
    metadata := [] }

/-- Incoming session of the C2 witness: same id, every immutable field
different, counters advanced. -/
def c2Incoming : Session :=
  { c2Stored with
    agent_type := .cursor, external_id := "e2".data,
    project_path := "/q".data, started_at := ⟨5⟩, status := .completed,
    message_count := 2, tokens_input := 30 }

/-- Witness for C2 at a concrete one-row table. -/
theorem c2_upsert_frame_witness :
    findSession (upsertSession [c2Stored] c2Incoming) c2Incoming.id
      = some (conflictUpdate c2Stored c2Incoming) :=
  (c2_upsert_frame.1 [c2Stored] c2Incoming c2Stored (by decide)).1

/-! ## Claude adapter per-entry processing (src/rust-daemon/src/adapters.rs)

A parsed `history.jsonl` / session-file line.  Each field models the
corresponding `entry.get(..).and_then(as_..)` access of `process_entry`:
`none` covers both an absent key and a value of the wrong JSON type. -/

/-- `message.usage`. -/
structure Usage where
  input_tokens : Option Int
  output_tokens : Option Int
deriving DecidableEq

/-- One element of a `message.content` array; only its `type` tag drives the
`tool_call_count` accounting modelled here. -/
structure ContentBlock where
  btype : Option Str
deriving DecidableEq

/-- `message.content`: either a plain string or an array of blocks. -/
inductive MsgContent where
  | str (s : Str)
  | arr (blocks : List ContentBlock)
deriving DecidableEq

/-- The `message` object of an entry. -/
structure Message where
  role : Option Str
  usage : Option Usage
  model : Option Str
  content : Option MsgContent
deriving DecidableEq

/-- A log entry as read by `ClaudeCodeAdapter::process_entry`. -/
structure Entry where
  cwd : Option Str
  project : Option Str
  sessionId : Option Str
  etype : Option Str
  message : Option Message
  timestamp : Option UtcTime
  display : Option Str
deriving DecidableEq

/-- `entry.get("type").and_then(as_str).unwrap_or("")`. -/
def Entry.msgType (e : Entry) : Str := e.etype.getD []

/-- `Session::update_activity`: refresh `last_activity_at` and recompute the
duration in whole seconds (`chrono::Duration::num_seconds` truncates toward
zero, hence `Int.tdiv` on the nanosecond difference). -/
def updateActivity (now : UtcTime) (s : Session) : Session :=
  { s with
    last_activity_at := now
    duration_seconds := (((now.nanos - s.started_at.nanos).tdiv 1000000000 : Int) : ℚ) }

/-- Token accumulation of `process_entry` (adapters.rs lines 362-378):
`message.usage.input_tokens`/`output_tokens` are added when present, and
`message.model` fills `model_id` when it is still unset. -/
def applyUsage (e : Entry) (s : Session) : Session :=
  match e.message with
  | none => s
  | some m =>
    let s := match m.usage with
      | none => s
      | some u =>
        let s := match u.input_tokens with
          | some i => { s with tokens_input := s.tokens_input + i }
          | none => s
        match u.output_tokens with
        | some o => { s with tokens_output := s.tokens_output + o }
        | none => s
    match s.model_id, m.model with
    | none, some md => { s with model_id := some md }
    | _, _ => s

/-- Number of `tool_use` blocks counted by `process_entry`
(adapters.rs lines 386-396): only for entries whose top-level `type` is
`assistant` and whose `message.content` is an array. -/
def toolUseBlocks (e : Entry) : Int :=
  if e.msgType = "assistant".data then
    match e.message with
    | some m =>
      match m.content with
      | some (.arr blocks) =>
        ((blocks.filter (fun b => decide (b.btype = some "tool_use".data))).length : Int)
      | _ => 0
    | none => 0
  else 0

/-- The session mutation of `ClaudeCodeAdapter::process_entry`
(adapters.rs lines 358-396), applied to the in-memory session just before it
is upserted: bump `message_count`, refresh activity, force `Active`,
accumulate usage, recompute `estimated_cost` from the current totals at
3 $/Mtok input and 15 $/Mtok output, then count `tool_use` blocks. -/
def processEntrySession (e : Entry) (now : UtcTime) (s : Session) : Session :=
  let s := { s with message_count := s.message_count + 1 }
  let s := updateActivity now s
  let s := { s with status := SessionStatus.active }
  let s := applyUsage e s
  let s := { s with estimated_cost :=
    (s.tokens_input : ℚ) * 3 / 1000000 + (s.tokens_output : ℚ) * 15 / 1000000 }
  { s with tool_call_count := s.tool_call_count + toolUseBlocks e }

/-- `Session::new` (models.rs lines 100-124), with the fresh UUID and the
creation instant passed in explicitly. -/
def sessionNew (newId : Str) (agent : AgentType) (project_path external_id : Str)
    (now : UtcTime) : Session :=
  { id := newId, agent_type := agent, external_id := external_id,
    project_path := project_path, status := .active, started_at := now,
    last_activity_at := now, ended_at := none, duration_seconds := 0,
    message_count := 0, tool_call_count := 0, file_operations := 0,
    tokens_input := 0, tokens_output := 0, estimated_cost := 0,
    model_id := none, pid := none, current_task := none, progress := 0,
    metadata := [] }

/-- The per-line session mutation of `ClaudeCodeAdapter::parse_history`
(adapters.rs lines 552-561): historical backfill bumps `message_count`,
refreshes activity and classifies Active/Completed by 30-minute recency;
it never touches the token accumulators or the cost. -/
def backfillUpdate (timestampMs nowMs : Int) (now : UtcTime) (s : Session) : Session :=
  let s := { s with message_count := s.message_count + 1 }
  let s := updateActivity now s
  if timestampMs > 0 ∧ nowMs - timestampMs < 30 * 60 * 1000 then
    { s with status := .active }
  else
    { s with status := .completed }

/-- A process-scan session (`ClaudeCodeAdapter::find_processes`,
adapters.rs lines 589-597): `Session::new` with the pid recorded and a
`source = process` metadata entry. -/
def procSession (newId : Str) (cwd : Str) (pid : Int) (pidStr : Str)
    (now : UtcTime) : Session :=
  { sessionNew newId .claudeCode cwd ("proc_".data ++ pidStr) now with
    pid := some pid
    metadata := [("source".data, "process".data)] }

/-- The cost law of the specification: `estimated_cost` is within `1e-9` of
`tokens_input · 3e-6 + tokens_output · 15e-6`. -/
def costLawOk (s : Session) : Prop :=
  |s.estimated_cost -
    ((s.tokens_input : ℚ) * 3 / 1000000 + (s.tokens_output : ℚ) * 15 / 1000000)|
      ≤ 1 / 1000000000

instance (s : Session) : Decidable (costLawOk s) := by
  unfold costLawOk
  infer_instance

/-- Helper: a session whose `estimated_cost` was just recomputed from its own
token totals satisfies the cost law exactly, whatever the later
`tool_call_count` update writes. -/
theorem costLaw_after_recompute (u : Session) (k : Int) :
    costLawOk { u with
      estimated_cost :=
        (u.tokens_input : ℚ) * 3 / 1000000 + (u.tokens_output : ℚ) * 15 / 1000000,
      tool_call_count := k } := by
  unfold costLawOk
  norm_num

/-- C3. Cost law: after the session mutation of the Claude adapter's
per-entry processing, `estimated_cost` is within `1e-9` (here: exactly equal)
of `tokens_input · 3e-6 + tokens_output · 15e-6`; freshly created sessions
(`Session::new`, as used by historical backfill and process scanning) have
zero token accumulators and satisfy the law, and the backfill per-line
mutation preserves it. -/
theorem c3_cost_law :
    (∀ (e : Entry) (now : UtcTime) (s : Session),
        costLawOk (processEntrySession e now s))
    ∧ (∀ (newId : Str) (agent : AgentType) (project_path external_id : Str)
        (now : UtcTime),
        (sessionNew newId agent project_path external_id now).tokens_input = 0
        ∧ (sessionNew newId agent project_path external_id now).tokens_output = 0
        ∧ costLawOk (sessionNew newId agent project_path external_id now))
    ∧ (∀ (timestampMs nowMs : Int) (now : UtcTime) (s : Session),
        costLawOk s → costLawOk (backfillUpdate timestampMs nowMs now s))
    ∧ (∀ (newId : Str) (cwd : Str) (pid : Int) (pidStr : Str) (now : UtcTime),
        costLawOk (procSession newId cwd pid pidStr now)) := by
  refine ⟨?_, ?_, ?_, ?_⟩
  · intro e now s
    exact costLaw_after_recompute
      (applyUsage e { updateActivity now { s with message_count := s.message_count + 1 }
        with status := SessionStatus.active }) _
  · intro newId agent project_path external_id now
    refine ⟨rfl, rfl, ?_⟩
    unfold costLawOk sessionNew
    norm_num
  · intro timestampMs nowMs now s h
    unfold costLawOk backfillUpdate updateActivity
    split <;> simpa [costLawOk] using h
  · intro newId cwd pid pidStr now
    unfold costLawOk procSession sessionNew
    norm_num

/-- Witness for C3's hypothesis-bearing conjunct, at a concrete fresh
session (which satisfies the cost law by the theorem's own base case). -/
theorem c3_cost_law_witness :
    costLawOk (backfillUpdate 0 0 ⟨0⟩
      (sessionNew "i".data .claudeCode "/p".data "x".data ⟨0⟩)) :=
  c3_cost_law.2.2.1 0 0 ⟨0⟩ _
    (c3_cost_law.2.1 "i".data .claudeCode "/p".data "x".data ⟨0⟩).2.2

/-- The role string used by `process_entry` to pick the event kind
(adapters.rs lines 404-407): `message.role`, falling back to the entry's
top-level `type` field when `message.role` is absent. -/
def Entry.role (e : Entry) : Str :=
  ((e.message.bind Message.role).getD (e.msgType))

/-- The event-kind derivation of `process_entry` (adapters.rs lines 409-413). -/
def eventTypeOfEntry (e : Entry) : EventType :=
  if e.role = "user".data then .promptReceived
  else if e.role = "assistant".data then .responseGenerated
  else .custom

/-- An entry with no `message` object at all and top-level
`type = "assistant"`. -/
def c8Entry : Entry :=
  { cwd := some "/p".data, project := none, sessionId := some "s".data,
    etype := some "assistant".data, message := none, timestamp := none,
    display := none }

/-- C8 counterexample: for an entry whose `message.role` is absent the claim
says the event kind is Custom regardless of the top-level `type` field, but
`process_entry` falls back to that field: with `type = "assistant"` and no
`message`, the emitted kind is ResponseGenerated, not Custom. -/
theorem c8_event_kind_counterexample :
    eventTypeOfEntry c8Entry = .responseGenerated
    ∧ eventTypeOfEntry c8Entry ≠ .custom := by
  constructor <;> decide

/-- C8 (amended). Event-kind derivation: the role is `message.role` when
present, else the entry's top-level `type`; `user` maps to PromptReceived,
`assistant` to ResponseGenerated, anything else (including both fields
absent) to Custom. -/
theorem c8_event_kind_derivation :
    ∀ e : Entry,
      (e.message.bind Message.role = some "user".data →
        eventTypeOfEntry e = .promptReceived)
      ∧ (e.message.bind Message.role = some "assistant".data →
        eventTypeOfEntry e = .responseGenerated)
      ∧ (e.message.bind Message.role = none → e.etype = some "user".data →
        eventTypeOfEntry e = .promptReceived)
      ∧ (e.message.bind Message.role = none → e.etype = some "assistant".data →
        eventTypeOfEntry e = .responseGenerated)
      ∧ (∀ r, e.message.bind Message.role = some r → r ≠ "user".data →
        r ≠ "assistant".data → eventTypeOfEntry e = .custom)
      ∧ (e.message.bind Message.role = none →
        (∀ t, e.etype = some t → t ≠ "user".data ∧ t ≠ "assistant".data) →
        eventTypeOfEntry e = .custom) := by
  intro e
  refine ⟨fun h => ?_, fun h => ?_, fun h ht => ?_, fun h ht => ?_,
    fun r h hu ha => ?_, fun h ht => ?_⟩
  · simp [eventTypeOfEntry, Entry.role, h]
  · simp [eventTypeOfEntry, Entry.role, h]
  · simp [eventTypeOfEntry, Entry.role, Entry.msgType, h, ht]
  · simp [eventTypeOfEntry, Entry.role, Entry.msgType, h, ht]
  · simp [eventTypeOfEntry, Entry.role, h, hu, ha]
  · have hrole : e.role = e.msgType := by unfold Entry.role; rw [h]; rfl
    cases he : e.etype with
    | none =>
      have hnil : e.role = [] := by rw [hrole]; unfold Entry.msgType; rw [he]; rfl
      simp [eventTypeOfEntry, hnil]
    | some t =>
      have hts := ht t he
      have hrt : e.role = t := by rw [hrole]; unfold Entry.msgType; rw [he]; rfl
      simp [eventTypeOfEntry, hrt, hts.1, hts.2]

/-- An entry carrying `message.role = "user"`, for the C8 witness. -/
def c8UserEntry : Entry :=
  { c8Entry with
    message := some { role := some "user".data, usage := none,
                      model := none, content := none } }

/-- Witness for C8 (amended) at concrete entries. -/
theorem c8_event_kind_derivation_witness :
    eventTypeOfEntry c8UserEntry = .promptReceived ∧
    eventTypeOfEntry c8Entry = .responseGenerated :=
  ⟨(c8_event_kind_derivation c8UserEntry).1 (by decide),
   (c8_event_kind_derivation c8Entry).2.2.2.1 (by decide) (by decide)⟩

/-! ## Exit detector (src/rust-daemon/src/analytics.rs lines 43-234) -/

/-- `analytics::DONE_PATTERNS`. -/
def DONE_PATTERNS : List Str :=
  ["all tasks completed".data, "all tasks complete".data,
   "implementation complete".data, "feature complete".data,
   "work complete".data, "all done".data, "everything is done".data,
   "finished implementing".data, "successfully completed".data,
   "task completed successfully".data, "no more tasks".data,
   "nothing left to do".data]

/-- `analytics::STRONG_COMPLETION_PATTERNS`. -/
def STRONG_COMPLETION_PATTERNS : List Str :=
  ["all requirements have been met".data, "the implementation is complete".data,
   "all features are working".data, "tests are passing".data,
   "ready for review".data, "ready to merge".data, "pr ready".data,
   "pull request ready".data]

/-- `analytics::TEST_ONLY_PATTERNS`. -/
def TEST_ONLY_PATTERNS : List Str :=
  ["running tests".data, "test passed".data, "tests passed".data,
   "all tests pass".data, "pytest".data, "cargo test".data, "npm test".data,
   "jest".data, "vitest".data]

/-- `analytics::ExitReason`. -/
inductive ExitReason where
  | taskListComplete | completionSignals | strongCompletion | projectComplete
  | testSaturation | userRequested | circuitBreakerOpen | rateLimitExceeded
  | apiLimitReached
deriving DecidableEq

/-- `analytics::ExitDetector`. -/
structure ExitDetector where
  done_signal_count : Nat
  test_only_count : Nat
  completion_indicator_count : Nat
  recent_content : List Str
  max_recent : Nat
  done_threshold : Nat
  test_saturation_threshold : Nat
  completion_threshold : Nat
deriving DecidableEq

/-- `ExitDetector::new` / `Default::default()`. -/
def ExitDetector.new : ExitDetector :=
  { done_signal_count := 0, test_only_count := 0,
    completion_indicator_count := 0, recent_content := [], max_recent := 20,
    done_threshold := 2, test_saturation_threshold := 3,
    completion_threshold := 2 }

/-- The recent-content ring push of `analyze_event`
(analytics.rs lines 131-136). -/
def ExitDetector.pushRecent (d : ExitDetector) (content contentLower : Str) :
    ExitDetector :=
  if content ≠ [] then
    let rc := d.recent_content ++ [contentLower]
    { d with recent_content := if rc.length > d.max_recent then rc.tail else rc }
  else d

/-- The done-signal counting of `analyze_event` (analytics.rs lines 139-146). -/
def ExitDetector.updateDone (d : ExitDetector) (hasDone : Bool) : ExitDetector :=
  if hasDone then { d with done_signal_count := d.done_signal_count + 1 }
  else { d with done_signal_count := 0 }

/-- The test-only counting of `analyze_event` (analytics.rs lines 169-174). -/
def ExitDetector.updateTestOnly (d : ExitDetector) (isTestOnly nonempty : Bool) :
    ExitDetector :=
  if isTestOnly then { d with test_only_count := d.test_only_count + 1 }
  else if nonempty then { d with test_only_count := 0 }
  else d

/-- The exit-condition cascade of `analyze_event`
(analytics.rs lines 177-189). -/
def ExitDetector.checkExits (d : ExitDetector) : Option ExitReason × ExitDetector :=
  if d.done_signal_count ≥ d.done_threshold then (some .completionSignals, d)
  else if d.completion_indicator_count ≥ d.completion_threshold then
    (some .projectComplete, d)
  else if d.test_only_count ≥ d.test_saturation_threshold then
    (some .testSaturation, d)
  else (none, d)

/-- The test-only predicate of `analyze_event` (analytics.rs lines 163-167):
a TEST-ONLY pattern matches and none of the progress words occurs. -/
def isTestOnlyContent (contentLower : Str) : Bool :=
  TEST_ONLY_PATTERNS.any (containsSub contentLower)
    && !(containsSub contentLower "implement".data)
    && !(containsSub contentLower "fix".data)
    && !(containsSub contentLower "add".data)
    && !(containsSub contentLower "create".data)

/-- `ExitDetector::analyze_event` (analytics.rs lines 126-190), returning the
optional exit reason together with the successor detector state. -/
def analyzeEvent (d : ExitDetector) (e : SessionEvent) :
    Option ExitReason × ExitDetector :=
  let content := e.content.getD []
  let contentLower := toLowerStr content
  let d := d.pushRecent content contentLower
  let hasDone := DONE_PATTERNS.any (containsSub contentLower)
  let d := d.updateDone hasDone
  let hasStrong := STRONG_COMPLETION_PATTERNS.any (containsSub contentLower)
  if hasStrong then
    (some .strongCompletion,
     { d with completion_indicator_count := d.completion_indicator_count + 1 })
  else
    let isTestOnly := isTestOnlyContent contentLower
    let d := d.updateTestOnly isTestOnly (content ≠ [])
    d.checkExits

/-- Helper: a pattern list matches once one of its members occurs. -/
theorem any_contains_of_mem {L : List Str} {lc p : Str} (hp : p ∈ L)
    (h : containsSub lc p = true) : L.any (containsSub lc) = true :=
  List.any_eq_true.mpr ⟨p, hp, h⟩

/-- Field bookkeeping of the recent-content push. -/
@[simp] theorem pushRecent_done (d : ExitDetector) (c lc : Str) :
    (d.pushRecent c lc).done_signal_count = d.done_signal_count := by
  unfold ExitDetector.pushRecent; split <;> rfl

@[simp] theorem pushRecent_test (d : ExitDetector) (c lc : Str) :
    (d.pushRecent c lc).test_only_count = d.test_only_count := by
  unfold ExitDetector.pushRecent; split <;> rfl

@[simp] theorem pushRecent_completion (d : ExitDetector) (c lc : Str) :
    (d.pushRecent c lc).completion_indicator_count
      = d.completion_indicator_count := by
  unfold ExitDetector.pushRecent; split <;> rfl

@[simp] theorem pushRecent_doneThreshold (d : ExitDetector) (c lc : Str) :
    (d.pushRecent c lc).done_threshold = d.done_threshold := by
  unfold ExitDetector.pushRecent; split <;> rfl

@[simp] theorem pushRecent_testThreshold (d : ExitDetector) (c lc : Str) :
    (d.pushRecent c lc).test_saturation_threshold
      = d.test_saturation_threshold := by
  unfold ExitDetector.pushRecent; split <;> rfl

@[simp] theorem pushRecent_completionThreshold (d : ExitDetector) (c lc : Str) :
    (d.pushRecent c lc).completion_threshold = d.completion_threshold := by
  unfold ExitDetector.pushRecent; split <;> rfl

/-- Field bookkeeping of the done-signal update. -/
@[simp] theorem updateDone_done (d : ExitDetector) (b : Bool) :
    (d.updateDone b).done_signal_count
      = if b then d.done_signal_count + 1 else 0 := by
  unfold ExitDetector.updateDone; split <;> simp_all

@[simp] theorem updateDone_test (d : ExitDetector) (b : Bool) :
    (d.updateDone b).test_only_count = d.test_only_count := by
  unfold ExitDetector.updateDone; split <;> rfl

@[simp] theorem updateDone_completion (d : ExitDetector) (b : Bool) :
    (d.updateDone b).completion_indicator_count
      = d.completion_indicator_count := by
  unfold ExitDetector.updateDone; split <;> rfl

@[simp] theorem updateDone_doneThreshold (d : ExitDetector) (b : Bool) :
    (d.updateDone b).done_threshold = d.done_threshold := by
  unfold ExitDetector.updateDone; split <;> rfl

@[simp] theorem updateDone_testThreshold (d : ExitDetector) (b : Bool) :
    (d.updateDone b).test_saturation_threshold
      = d.test_saturation_threshold := by
  unfold ExitDetector.updateDone; split <;> rfl

@[simp] theorem updateDone_completionThreshold (d : ExitDetector) (b : Bool) :
    (d.updateDone b).completion_threshold = d.completion_threshold := by
  unfold ExitDetector.updateDone; split <;> rfl

/-- Field bookkeeping of the test-only update. -/
@[simp] theorem updateTestOnly_test (d : ExitDetector) (b n : Bool) :
    (d.updateTestOnly b n).test_only_count
      = if b then d.test_only_count + 1
        else if n then 0 else d.test_only_count := by
  unfold ExitDetector.updateTestOnly; split_ifs <;> simp_all

@[simp] theorem updateTestOnly_done (d : ExitDetector) (b n : Bool) :
    (d.updateTestOnly b n).done_signal_count = d.done_signal_count := by
  unfold ExitDetector.updateTestOnly; split_ifs <;> rfl

@[simp] theorem updateTestOnly_completion (d : ExitDetector) (b n : Bool) :
    (d.updateTestOnly b n).completion_indicator_count
      = d.completion_indicator_count := by
  unfold ExitDetector.updateTestOnly; split_ifs <;> rfl

@[simp] theorem updateTestOnly_doneThreshold (d : ExitDetector) (b n : Bool) :
    (d.updateTestOnly b n).done_threshold = d.done_threshold := by
  unfold ExitDetector.updateTestOnly; split_ifs <;> rfl

@[simp] theorem updateTestOnly_testThreshold (d : ExitDetector) (b n : Bool) :
    (d.updateTestOnly b n).test_saturation_threshold
      = d.test_saturation_threshold := by
  unfold ExitDetector.updateTestOnly; split_ifs <;> rfl

@[simp] theorem updateTestOnly_completionThreshold (d : ExitDetector) (b n : Bool) :
    (d.updateTestOnly b n).completion_threshold = d.completion_threshold := by
  unfold ExitDetector.updateTestOnly; split_ifs <;> rfl

/-- The exit cascade never changes the detector state it returns. -/
@[simp] theorem checkExits_snd (d : ExitDetector) : (d.checkExits).2 = d := by
  unfold ExitDetector.checkExits; split_ifs <;> rfl

/-- Helper: field bookkeeping of one `analyze_event` step. -/
theorem analyzeEvent_state (d : ExitDetector) (e : SessionEvent) :
    ((analyzeEvent d e).2.done_signal_count
      = if DONE_PATTERNS.any (containsSub (toLowerStr (e.content.getD []))) then
          d.done_signal_count + 1 else 0)
    ∧ ((analyzeEvent d e).2.completion_indicator_count
      = if STRONG_COMPLETION_PATTERNS.any
            (containsSub (toLowerStr (e.content.getD []))) then
          d.completion_indicator_count + 1 else d.completion_indicator_count)
    ∧ ((analyzeEvent d e).2.test_only_count
      = if STRONG_COMPLETION_PATTERNS.any
            (containsSub (toLowerStr (e.content.getD []))) then
          d.test_only_count
        else if isTestOnlyContent (toLowerStr (e.content.getD [])) then
          d.test_only_count + 1
        else if e.content.getD [] ≠ [] then 0 else d.test_only_count)
    ∧ (analyzeEvent d e).2.done_threshold = d.done_threshold
    ∧ (analyzeEvent d e).2.test_saturation_threshold = d.test_saturation_threshold
    ∧ (analyzeEvent d e).2.completion_threshold = d.completion_threshold := by
  by_cases hs : STRONG_COMPLETION_PATTERNS.any
      (containsSub (toLowerStr (e.content.getD []))) = true
  · simp [analyzeEvent, hs]
  · have hs' : STRONG_COMPLETION_PATTERNS.any
        (containsSub (toLowerStr (e.content.getD []))) = false :=
      Bool.eq_false_iff.mpr hs
    simp [analyzeEvent, hs']

/-- Helper: a strong-completion pattern returns StrongCompletion at once. -/
theorem analyzeEvent_result_strong (d : ExitDetector) (e : SessionEvent)
    (h : STRONG_COMPLETION_PATTERNS.any
      (containsSub (toLowerStr (e.content.getD []))) = true) :
    (analyzeEvent d e).1 = some .strongCompletion := by
  simp [analyzeEvent, h]

/-- Helper: without a strong-completion pattern, `analyze_event` returns the
exit-cascade verdict of its successor state. -/
theorem analyzeEvent_eq_checkExits (d : ExitDetector) (e : SessionEvent)
    (h : STRONG_COMPLETION_PATTERNS.any
      (containsSub (toLowerStr (e.content.getD []))) = false) :
    analyzeEvent d e = ((analyzeEvent d e).2).checkExits := by
  simp only [analyzeEvent, h, Bool.false_eq_true, if_false, checkExits_snd]

/-- Helper: exit cascade, done-signal branch. -/
theorem checkExits_done (d : ExitDetector)
    (h : d.done_signal_count ≥ d.done_threshold) :
    d.checkExits = (some .completionSignals, d) := by
  unfold ExitDetector.checkExits
  rw [if_pos h]

/-- Helper: exit cascade, test-saturation branch. -/
theorem checkExits_testSaturation (d : ExitDetector)
    (h1 : ¬ d.done_signal_count ≥ d.done_threshold)
    (h2 : ¬ d.completion_indicator_count ≥ d.completion_threshold)
    (h3 : d.test_only_count ≥ d.test_saturation_threshold) :
    d.checkExits = (some .testSaturation, d) := by
  unfold ExitDetector.checkExits
  rw [if_neg h1, if_neg h2, if_pos h3]

/-- Helper: a progress word defeats the test-only predicate. -/
theorem isTestOnly_false_of_progress (lc : Str)
    (h : (containsSub lc "implement".data || containsSub lc "fix".data
      || containsSub lc "add".data || containsSub lc "create".data) = true) :
    isTestOnlyContent lc = false := by
  unfold isTestOnlyContent
  simp only [Bool.or_eq_true] at h
  rcases h with (h' | h') | h'
  · rcases h' with h'' | h'' <;> simp [h'']
  · simp [h']
  · simp [h']

/-- Helper: one step on a done-signal content (no strong pattern). -/
theorem doneSignalStep (d : ExitDetector) (e : SessionEvent) (c : Str)
    (hc : e.content = some c)
    (hdone : containsSub (toLowerStr c) "all tasks completed".data = true)
    (hs : STRONG_COMPLETION_PATTERNS.any (containsSub (toLowerStr c)) = false) :
    (analyzeEvent d e).2.done_signal_count = d.done_signal_count + 1
    ∧ (analyzeEvent d e).2.done_threshold = d.done_threshold := by
  have st := analyzeEvent_state d e
  simp only [hc, Option.getD_some] at st
  refine ⟨?_, st.2.2.2.1⟩
  rw [st.1, if_pos (any_contains_of_mem (by decide) hdone)]

/-- Helper: one step on a test-only content (no done or strong pattern). -/
theorem testOnlyStep (d : ExitDetector) (e : SessionEvent) (c : Str)
    (hc : e.content = some c)
    (ht : isTestOnlyContent (toLowerStr c) = true)
    (hd : DONE_PATTERNS.any (containsSub (toLowerStr c)) = false)
    (hs : STRONG_COMPLETION_PATTERNS.any (containsSub (toLowerStr c)) = false) :
    (analyzeEvent d e).2.done_signal_count = 0
    ∧ (analyzeEvent d e).2.test_only_count = d.test_only_count + 1
    ∧ (analyzeEvent d e).2.completion_indicator_count
        = d.completion_indicator_count
    ∧ (analyzeEvent d e).2.done_threshold = d.done_threshold
    ∧ (analyzeEvent d e).2.test_saturation_threshold
        = d.test_saturation_threshold
    ∧ (analyzeEvent d e).2.completion_threshold = d.completion_threshold := by
  have st := analyzeEvent_state d e
  simp only [hc, Option.getD_some] at st
  refine ⟨?_, ?_, ?_, st.2.2.2.1, st.2.2.2.2.1, st.2.2.2.2.2⟩
  · rw [st.1, if_neg (by simp [hd])]
  · rw [st.2.2.1, if_neg (by simp [hs]), if_pos ht]
  · rw [st.2.1, if_neg (by simp [hs])]

/-- C4. Exit detector thresholds: from a fresh detector, two successive
events whose content contains "all tasks completed" (and no strong pattern)
yield CompletionSignals on the second; any event containing
"ready for review" yields StrongCompletion at once; three successive
test-only events (a TEST-ONLY pattern matches, no progress word, and no done
or strong pattern) yield TestSaturation on the third; and a non-empty event
containing a progress word (without a strong pattern) resets the test-only
counter to 0. -/
theorem c4_exit_detector_thresholds :
    (∀ (e1 e2 : SessionEvent) (c1 c2 : Str),
      e1.content = some c1 → e2.content = some c2 →
      containsSub (toLowerStr c1) "all tasks completed".data = true →
      STRONG_COMPLETION_PATTERNS.any (containsSub (toLowerStr c1)) = false →
      containsSub (toLowerStr c2) "all tasks completed".data = true →
      STRONG_COMPLETION_PATTERNS.any (containsSub (toLowerStr c2)) = false →
      (analyzeEvent (analyzeEvent ExitDetector.new e1).2 e2).1
        = some .completionSignals)
    ∧ (∀ (d : ExitDetector) (e : SessionEvent) (c : Str),
      e.content = some c →
      containsSub (toLowerStr c) "ready for review".data = true →
      (analyzeEvent d e).1 = some .strongCompletion)
    ∧ (∀ (e1 e2 e3 : SessionEvent) (c1 c2 c3 : Str),
      e1.content = some c1 → e2.content = some c2 → e3.content = some c3 →
      isTestOnlyContent (toLowerStr c1) = true →
      DONE_PATTERNS.any (containsSub (toLowerStr c1)) = false →
      STRONG_COMPLETION_PATTERNS.any (containsSub (toLowerStr c1)) = false →
      isTestOnlyContent (toLowerStr c2) = true →
      DONE_PATTERNS.any (containsSub (toLowerStr c2)) = false →
      STRONG_COMPLETION_PATTERNS.any (containsSub (toLowerStr c2)) = false →
      isTestOnlyContent (toLowerStr c3) = true →
      DONE_PATTERNS.any (containsSub (toLowerStr c3)) = false →
      STRONG_COMPLETION_PATTERNS.any (containsSub (toLowerStr c3)) = false →
      (analyzeEvent (analyzeEvent (analyzeEvent ExitDetector.new e1).2 e2).2 e3).1
        = some .testSaturation)
    ∧ (∀ (d : ExitDetector) (e : SessionEvent) (c : Str),
      e.content = some c → c ≠ [] →
      (containsSub (toLowerStr c) "implement".data
        || containsSub (toLowerStr c) "fix".data
        || containsSub (toLowerStr c) "add".data
        || containsSub (toLowerStr c) "create".data) = true →
      STRONG_COMPLETION_PATTERNS.any (containsSub (toLowerStr c)) = false →
      (analyzeEvent d e).2.test_only_count = 0) := by
  refine ⟨?_, ?_, ?_, ?_⟩
  · intro e1 e2 c1 c2 hc1 hc2 hd1 hs1 hd2 hs2
    obtain ⟨a1, t1⟩ := doneSignalStep ExitDetector.new e1 c1 hc1 hd1 hs1
    obtain ⟨a2, t2⟩ :=
      doneSignalStep (analyzeEvent ExitDetector.new e1).2 e2 c2 hc2 hd2 hs2
    have heq := analyzeEvent_eq_checkExits (analyzeEvent ExitDetector.new e1).2
      e2 (by simpa [hc2] using hs2)
    conv_lhs => rw [heq]
    rw [checkExits_done _ (by rw [a2, a1, t2, t1]; decide)]
  · intro d e c hc hrfr
    exact analyzeEvent_result_strong d e (by
      simp only [hc, Option.getD_some]
      exact any_contains_of_mem (by decide) hrfr)
  · intro e1 e2 e3 c1 c2 c3 hc1 hc2 hc3 ht1 hd1 hs1 ht2 hd2 hs2 ht3 hd3 hs3
    obtain ⟨a1, b1, g1, t1, u1, v1⟩ :=
      testOnlyStep ExitDetector.new e1 c1 hc1 ht1 hd1 hs1
    obtain ⟨a2, b2, g2, t2, u2, v2⟩ :=
      testOnlyStep (analyzeEvent ExitDetector.new e1).2 e2 c2 hc2 ht2 hd2 hs2
    obtain ⟨a3, b3, g3, t3, u3, v3⟩ :=
      testOnlyStep (analyzeEvent (analyzeEvent ExitDetector.new e1).2 e2).2
        e3 c3 hc3 ht3 hd3 hs3
    have heq := analyzeEvent_eq_checkExits
      (analyzeEvent (analyzeEvent ExitDetector.new e1).2 e2).2 e3
      (by simpa [hc3] using hs3)
    conv_lhs => rw [heq]
    rw [checkExits_testSaturation]
    · rw [a3, t3, t2, t1]; decide
    · rw [g3, g2, g1, v3, v2, v1]; decide
    · rw [b3, b2, b1, u3, u2, u1]; decide
  · intro d e c hc hne hprog hs
    have st := analyzeEvent_state d e
    simp only [hc, Option.getD_some] at st
    rw [st.2.2.1, if_neg (by simp [hs]),
      if_neg (by simp [isTestOnly_false_of_progress _ hprog]), if_pos hne]

/-- Concrete event with a given content, for the C4 witness. -/
def c4Evt (s : String) : SessionEvent :=
  { id := .randomUuid 0, session_id := "t".data,
    event_type := .responseGenerated, timestamp := ⟨0⟩,
    agent_type := .claudeCode, content := some s.data,
    working_directory := none, tool_name := none, file_path := none,
    tokens_input := none, tokens_output := none, error_message := none,
    raw_data := none }

/-- Witness for C4 at concrete contents. -/
theorem c4_exit_detector_thresholds_witness :
    (analyzeEvent (analyzeEvent ExitDetector.new
        (c4Evt "All tasks completed!")).2 (c4Evt "all tasks completed")).1
      = some .completionSignals
    ∧ (analyzeEvent ExitDetector.new (c4Evt "Ready for review.")).1
      = some .strongCompletion
    ∧ (analyzeEvent (analyzeEvent (analyzeEvent ExitDetector.new
        (c4Evt "running tests")).2 (c4Evt "cargo test ok")).2
        (c4Evt "pytest run")).1 = some .testSaturation
    ∧ (analyzeEvent ExitDetector.new (c4Evt "fix the bug")).2.test_only_count
      = 0 :=
  ⟨c4_exit_detector_thresholds.1 _ _ _ _ rfl rfl (by decide) (by decide)
      (by decide) (by decide),
   c4_exit_detector_thresholds.2.1 _ _ _ rfl (by decide),
   c4_exit_detector_thresholds.2.2.1 _ _ _ _ _ _ rfl rfl rfl (by decide)
      (by decide) (by decide) (by decide) (by decide) (by decide) (by decide)
      (by decide) (by decide),
   c4_exit_detector_thresholds.2.2.2 _ _ _ rfl (by decide) (by decide)
      (by decide)⟩

/-! ## Circuit breaker (src/rust-daemon/src/analytics.rs lines 250-451) -/

/-- `analytics::ERROR_PATTERNS`. -/
def ERROR_PATTERNS : List Str :=
  ["error:".data, "error!".data, "exception:".data, "exception!".data,
   "fatal:".data, "fatal!".data, "panic:".data, "failed:".data,
   "failure:".data, "traceback".data, "stack trace".data]

/-- `analytics::CircuitState`. -/
inductive CircuitState where
  | Closed | Open | HalfOpen
deriving DecidableEq

/-- `analytics::LoopResult`. -/
structure LoopResult where
  timestamp : UtcTime
  files_changed : Nat
  errors_detected : Nat
  output_length : Nat
  tokens_used : Int
  had_progress : Bool
deriving DecidableEq

/-- `analytics::CircuitBreaker`. -/
structure CircuitBreaker where
  state : CircuitState
  loop_history : List LoopResult
  max_history : Nat
  no_progress_threshold : Nat
  repeated_error_threshold : Nat
  no_progress_count : Nat
  repeated_error_count : Nat
  last_error_signature : Option Str
  opened_at : Option UtcTime
  open_reason : Option Str
deriving DecidableEq

/-- `CircuitBreaker::new` / `Default::default()`. -/
def CircuitBreaker.new : CircuitBreaker :=
  { state := .Closed, loop_history := [], max_history := 10,
    no_progress_threshold := 3, repeated_error_threshold := 5,
    no_progress_count := 0, repeated_error_count := 0,
    last_error_signature := none, opened_at := none, open_reason := none }

/-- The error count of `record_result` (analytics.rs lines 351-354): how many
ERROR patterns occur in the lower-cased content. -/
def errorsDetected (contentLower : Str) : Nat :=
  (ERROR_PATTERNS.filter (fun p => containsSub contentLower p)).length

/-- The error signature of `record_result` (analytics.rs lines 357-365): the
first line of the lower-cased content containing an error pattern, when any
pattern occurred at all. -/
def errorSignature (contentLower : Str) : Option Str :=
  if errorsDetected contentLower > 0 then
    (rustLines contentLower).find?
      (fun line => ERROR_PATTERNS.any (containsSub line))
  else none

/-- `CircuitBreaker::open` (analytics.rs lines 422-427). -/
def CircuitBreaker.openCircuit (cb : CircuitBreaker) (now : UtcTime)
    (reason : Str) : CircuitBreaker :=
  { cb with state := .Open, opened_at := some now, open_reason := some reason }

/-- The (un-interpolated) reason strings passed to `open`. -/
def noProgressReason : Str :=
  "No progress detected for \x7b\x7d consecutive loops".data

/-- Reason for the repeated-error transition. -/
def repeatedErrorReason : Str := "Same error repeated \x7b\x7d times".data

/-- `CircuitBreaker::record_result` (analytics.rs lines 347-419), with the
`Utc::now()` instants passed in; returns the `bool` result together with the
successor state. -/
def recordResult (cb : CircuitBreaker) (content : Str) (files_changed : Nat)
    (tokens_used : Int) (now : UtcTime) : Bool × CircuitBreaker :=
  let contentLower := toLowerStr content
  let sig := errorSignature contentLower
  let hadProgress := decide (files_changed > 0) || decide (tokens_used > 1000)
  let result : LoopResult :=
    { timestamp := now, files_changed := files_changed,
      errors_detected := errorsDetected contentLower,
      output_length := utf8Len content, tokens_used := tokens_used,
      had_progress := hadProgress }
  let hist := cb.loop_history ++ [result]
  let cb := { cb with
    loop_history := if hist.length > cb.max_history then hist.tail else hist }
  let cb :=
    if !hadProgress then
      { cb with no_progress_count := cb.no_progress_count + 1 }
    else
      { cb with no_progress_count := 0 }
  let cb : CircuitBreaker :=
    match sig with
    | some s =>
      if cb.last_error_signature = some s then
        { cb with repeated_error_count := cb.repeated_error_count + 1,
                  last_error_signature := some s }
      else
        { cb with repeated_error_count := 1, last_error_signature := some s }
    | none =>
      { cb with repeated_error_count := 0, last_error_signature := none }
  if cb.no_progress_count ≥ cb.no_progress_threshold then
    (true, cb.openCircuit now noProgressReason)
  else if cb.repeated_error_count ≥ cb.repeated_error_threshold then
    (true, cb.openCircuit now repeatedErrorReason)
  else (false, cb)

/-- Opening the circuit never changes the counters or the signature. -/
@[simp] theorem openCircuit_counts (cb : CircuitBreaker) (now : UtcTime)
    (reason : Str) :
    ((cb.openCircuit now reason).no_progress_count = cb.no_progress_count)
    ∧ ((cb.openCircuit now reason).repeated_error_count
        = cb.repeated_error_count)
    ∧ ((cb.openCircuit now reason).last_error_signature
        = cb.last_error_signature)
    ∧ ((cb.openCircuit now reason).state = .Open) :=
  ⟨rfl, rfl, rfl, rfl⟩

/-- Helper: one `record_result` step on an error-bearing content with
progress: the no-progress counter resets, the repeated-error counter
increments or resets to 1 by signature equality, and only the repeated-error
rule can open the circuit. -/
theorem recordResult_error_step (cb : CircuitBreaker) (c : Str) (fc : Nat)
    (tk : Int) (now : UtcTime) (s : Str)
    (hsig : errorSignature (toLowerStr c) = some s)
    (hprog : (decide (fc > 0) || decide (tk > 1000)) = true)
    (h0 : 0 < cb.no_progress_threshold) :
    ((recordResult cb c fc tk now).2.no_progress_count = 0)
    ∧ ((recordResult cb c fc tk now).2.repeated_error_count
        = if cb.last_error_signature = some s then cb.repeated_error_count + 1
          else 1)
    ∧ ((recordResult cb c fc tk now).2.last_error_signature = some s)
    ∧ ((recordResult cb c fc tk now).2.no_progress_threshold
        = cb.no_progress_threshold)
    ∧ ((recordResult cb c fc tk now).2.repeated_error_threshold
        = cb.repeated_error_threshold)
    ∧ ((recordResult cb c fc tk now).2.state
        = if (if cb.last_error_signature = some s then
              cb.repeated_error_count + 1 else 1)
            ≥ cb.repeated_error_threshold then .Open else cb.state)
    ∧ ((recordResult cb c fc tk now).1
        = decide ((if cb.last_error_signature = some s then
              cb.repeated_error_count + 1 else 1)
            ≥ cb.repeated_error_threshold)) := by
  have hnp : ¬ ((0 : Nat) ≥ cb.no_progress_threshold) := by omega
  by_cases hlast : cb.last_error_signature = some s
  · by_cases hrep : cb.repeated_error_count + 1 ≥ cb.repeated_error_threshold
    · simp [recordResult, hsig, hprog, hlast, hrep, hnp,
        CircuitBreaker.openCircuit]
    · simp [recordResult, hsig, hprog, hlast, hrep, hnp]
  · by_cases hrep : 1 ≥ cb.repeated_error_threshold
    · simp [recordResult, hsig, hprog, hlast, hrep, hnp,
        CircuitBreaker.openCircuit]
    · simp [recordResult, hsig, hprog, hlast, hrep, hnp]

/-- Helper: a fresh error signature resets the repeated-error counter to 1. -/
theorem recordResult_reset_one (cb : CircuitBreaker) (c : Str) (fc : Nat)
    (tk : Int) (now : UtcTime) (s : Str)
    (hsig : errorSignature (toLowerStr c) = some s)
    (hne : cb.last_error_signature ≠ some s) :
    (recordResult cb c fc tk now).2.repeated_error_count = 1 := by
  simp only [recordResult, hsig]
  split_ifs <;> simp_all [CircuitBreaker.openCircuit]

/-- Helper: an error-free content resets the repeated-error counter to 0. -/
theorem recordResult_reset_zero (cb : CircuitBreaker) (c : Str) (fc : Nat)
    (tk : Int) (now : UtcTime)
    (hsig : errorSignature (toLowerStr c) = none) :
    (recordResult cb c fc tk now).2.repeated_error_count = 0 := by
  simp only [recordResult, hsig]
  split_ifs <;> simp_all [CircuitBreaker.openCircuit]

/-- Helper: first error-bearing call on a fresh breaker. -/
theorem repeatChainInit (c : Str) (fc : Nat) (tk : Int) (now : UtcTime)
    (s : Str) (hsig : errorSignature (toLowerStr c) = some s)
    (hprog : (decide (fc > 0) || decide (tk > 1000)) = true) :
    ((recordResult CircuitBreaker.new c fc tk now).1 = false)
    ∧ ((recordResult CircuitBreaker.new c fc tk now).2.no_progress_threshold = 3)
    ∧ ((recordResult CircuitBreaker.new c fc tk now).2.repeated_error_threshold = 5)
    ∧ ((recordResult CircuitBreaker.new c fc tk now).2.last_error_signature = some s)
    ∧ ((recordResult CircuitBreaker.new c fc tk now).2.repeated_error_count = 1)
    ∧ ((recordResult CircuitBreaker.new c fc tk now).2.state = .Closed) := by
  obtain ⟨np, rep, last, npth, repth, st, ret⟩ :=
    recordResult_error_step CircuitBreaker.new c fc tk now s hsig hprog
      (by decide)
  refine ⟨?_, ?_, ?_, last, ?_, ?_⟩
  · rw [ret]; simp [CircuitBreaker.new]
  · rw [npth]; rfl
  · rw [repth]; rfl
  · rw [rep]; simp [CircuitBreaker.new]
  · rw [st]; simp [CircuitBreaker.new]

/-- Helper: an intermediate repeated-error call (the counter stays below the
threshold): the breaker stays Closed and the counter advances by one. -/
theorem repeatChainStep (cb : CircuitBreaker) (c : Str) (fc : Nat) (tk : Int)
    (now : UtcTime) (s : Str) (k : Nat)
    (hsig : errorSignature (toLowerStr c) = some s)
    (hprog : (decide (fc > 0) || decide (tk > 1000)) = true)
    (h3 : cb.no_progress_threshold = 3)
    (h5 : cb.repeated_error_threshold = 5)
    (hlast : cb.last_error_signature = some s)
    (hcount : cb.repeated_error_count = k)
    (hstate : cb.state = .Closed)
    (hk : k + 1 < 5) :
    ((recordResult cb c fc tk now).1 = false)
    ∧ ((recordResult cb c fc tk now).2.no_progress_threshold = 3)
    ∧ ((recordResult cb c fc tk now).2.repeated_error_threshold = 5)
    ∧ ((recordResult cb c fc tk now).2.last_error_signature = some s)
    ∧ ((recordResult cb c fc tk now).2.repeated_error_count = k + 1)
    ∧ ((recordResult cb c fc tk now).2.state = .Closed) := by
  obtain ⟨np, rep, last, npth, repth, st, ret⟩ :=
    recordResult_error_step cb c fc tk now s hsig hprog (by omega)
  refine ⟨?_, ?_, ?_, last, ?_, ?_⟩
  · rw [ret, if_pos hlast, hcount, h5]
    exact decide_eq_false (by omega)
  · rw [npth, h3]
  · rw [repth, h5]
  · rw [rep, if_pos hlast, hcount]
  · rw [st, if_pos hlast, hcount, h5, if_neg (by omega), hstate]

/-- Helper: the repeated-error call that reaches the threshold opens the
circuit and reports it. -/
theorem repeatChainFinal (cb : CircuitBreaker) (c : Str) (fc : Nat) (tk : Int)
    (now : UtcTime) (s : Str)
    (hsig : errorSignature (toLowerStr c) = some s)
    (hprog : (decide (fc > 0) || decide (tk > 1000)) = true)
    (h3 : cb.no_progress_threshold = 3)
    (h5 : cb.repeated_error_threshold = 5)
    (hlast : cb.last_error_signature = some s)
    (hcount : cb.repeated_error_count = 4) :
    ((recordResult cb c fc tk now).1 = true)
    ∧ ((recordResult cb c fc tk now).2.state = .Open) := by
  obtain ⟨np, rep, last, npth, repth, st, ret⟩ :=
    recordResult_error_step cb c fc tk now s hsig hprog (by omega)
  constructor
  · rw [ret, if_pos hlast, hcount, h5]
    exact decide_eq_true (by omega)
  · rw [st, if_pos hlast, hcount, h5, if_pos (by omega)]

/-- C5. Circuit-breaker repeated-error rule: from a fresh Closed breaker,
five consecutive `record_result` calls with progress whose lower-cased
content has the same first error-matching line (the error signature) stay
Closed through the fourth call and transition Closed → Open on the fifth,
which returns true; a call with a signature differing from the stored one
resets `repeated_error_count` to 1, and a call whose content matches no
error pattern resets it to 0. -/
theorem c5_circuit_breaker_repeated_error :
    (∀ (c1 c2 c3 c4 c5 : Str) (fc1 fc2 fc3 fc4 fc5 : Nat)
        (tk1 tk2 tk3 tk4 tk5 : Int) (now : UtcTime) (s : Str),
      errorSignature (toLowerStr c1) = some s →
      errorSignature (toLowerStr c2) = some s →
      errorSignature (toLowerStr c3) = some s →
      errorSignature (toLowerStr c4) = some s →
      errorSignature (toLowerStr c5) = some s →
      (decide (fc1 > 0) || decide (tk1 > 1000)) = true →
      (decide (fc2 > 0) || decide (tk2 > 1000)) = true →
      (decide (fc3 > 0) || decide (tk3 > 1000)) = true →
      (decide (fc4 > 0) || decide (tk4 > 1000)) = true →
      (decide (fc5 > 0) || decide (tk5 > 1000)) = true →
      let b1 := recordResult CircuitBreaker.new c1 fc1 tk1 now
      let b2 := recordResult b1.2 c2 fc2 tk2 now
      let b3 := recordResult b2.2 c3 fc3 tk3 now
      let b4 := recordResult b3.2 c4 fc4 tk4 now
      let b5 := recordResult b4.2 c5 fc5 tk5 now
      b1.1 = false ∧ b2.1 = false ∧ b3.1 = false ∧ b4.1 = false
      ∧ b1.2.state = .Closed ∧ b2.2.state = .Closed ∧ b3.2.state = .Closed
      ∧ b4.2.state = .Closed ∧ b5.1 = true ∧ b5.2.state = .Open)
    ∧ (∀ (cb : CircuitBreaker) (c : Str) (fc : Nat) (tk : Int) (now : UtcTime)
        (s : Str),
      errorSignature (toLowerStr c) = some s →
      cb.last_error_signature ≠ some s →
      (recordResult cb c fc tk now).2.repeated_error_count = 1)
    ∧ (∀ (cb : CircuitBreaker) (c : Str) (fc : Nat) (tk : Int)
        (now : UtcTime),
      errorSignature (toLowerStr c) = none →
      (recordResult cb c fc tk now).2.repeated_error_count = 0) := by
  refine ⟨?_, recordResult_reset_one, recordResult_reset_zero⟩
  intro c1 c2 c3 c4 c5 fc1 fc2 fc3 fc4 fc5 tk1 tk2 tk3 tk4 tk5 now s
    h1 h2 h3 h4 h5 hp1 hp2 hp3 hp4 hp5
  obtain ⟨r1, a1, b1, l1, k1, s1⟩ := repeatChainInit c1 fc1 tk1 now s h1 hp1
  obtain ⟨r2, a2, b2, l2, k2, s2⟩ :=
    repeatChainStep _ c2 fc2 tk2 now s 1 h2 hp2 a1 b1 l1 k1 s1 (by omega)
  obtain ⟨r3, a3, b3, l3, k3, s3⟩ :=
    repeatChainStep _ c3 fc3 tk3 now s 2 h3 hp3 a2 b2 l2 k2 s2 (by omega)
  obtain ⟨r4, a4, b4, l4, k4, s4⟩ :=
    repeatChainStep _ c4 fc4 tk4 now s 3 h4 hp4 a3 b3 l3 k3 s3 (by omega)
  obtain ⟨r5, s5⟩ :=
    repeatChainFinal _ c5 fc5 tk5 now s h5 hp5 a4 b4 l4 k4
  exact ⟨r1, r2, r3, r4, s1, s2, s3, s4, r5, s5⟩

/-- Concrete error content for the C5 witness. -/
def c5Content : Str := "Error: connection refused".data

/-- Its lower-cased error signature. -/
def c5Sig : Str := "error: connection refused".data

/-- Witness for C5 at concrete calls (files_changed 1, tokens 100). -/
theorem c5_circuit_breaker_repeated_error_witness :
    (let b1 := recordResult CircuitBreaker.new c5Content 1 100 ⟨0⟩
     let b2 := recordResult b1.2 c5Content 1 100 ⟨0⟩
     let b3 := recordResult b2.2 c5Content 1 100 ⟨0⟩
     let b4 := recordResult b3.2 c5Content 1 100 ⟨0⟩
     let b5 := recordResult b4.2 c5Content 1 100 ⟨0⟩
     b1.1 = false ∧ b2.1 = false ∧ b3.1 = false ∧ b4.1 = false
     ∧ b1.2.state = .Closed ∧ b2.2.state = .Closed ∧ b3.2.state = .Closed
     ∧ b4.2.state = .Closed ∧ b5.1 = true ∧ b5.2.state = .Open)
    ∧ (recordResult CircuitBreaker.new c5Content 1 100
        ⟨0⟩).2.repeated_error_count = 1
    ∧ (recordResult CircuitBreaker.new "ok".data 1 100
        ⟨0⟩).2.repeated_error_count = 0 :=
  ⟨c5_circuit_breaker_repeated_error.1 c5Content c5Content c5Content c5Content
      c5Content 1 1 1 1 1 100 100 100 100 100 ⟨0⟩ c5Sig (by decide) (by decide)
      (by decide) (by decide) (by decide) (by decide) (by decide) (by decide)
      (by decide) (by decide),
   c5_circuit_breaker_repeated_error.2.1 CircuitBreaker.new c5Content 1 100
      ⟨0⟩ c5Sig (by decide) (by decide),
   c5_circuit_breaker_repeated_error.2.2 CircuitBreaker.new "ok".data 1 100
      ⟨0⟩ (by decide)⟩

/-! ## v1 pagination handlers (src/rust-daemon/src/integrations.rs)

`usize` arithmetic panics are modelled by `Option`: a subtraction that would
underflow (debug profile) and a division by zero (every profile) yield
`none`. -/

/-- Panicking `usize` subtraction. -/
def checkedSub (a b : Nat) : Option Nat :=
  if b ≤ a then some (a - b) else none

/-- The shared pagination block of `list_sessions_handler`,
`get_session_events_handler` and `list_events_handler`
(integrations.rs lines 544-552, 598-606, 677-685):
`total_pages = (total + per_page - 1) / per_page`,
`start = (page - 1) * per_page`, items = `skip(start).take(per_page)`. -/
def paginate {α : Type} (filtered : List α) (page per_page : Nat) :
    Option (List α × Nat × Nat) :=
  let total := filtered.length
  match checkedSub (total + per_page) 1 with
  | none => none
  | some t =>
    if per_page = 0 then none
    else
      match checkedSub page 1 with
      | none => none
      | some pm1 =>
        some ((filtered.drop (pm1 * per_page)).take per_page, total,
          t / per_page)

/-- The `PaginatedResponse` envelope; `items` carries the selected rows (the
source maps each row one-to-one through a summary projection; its totality is
the subject of C10). -/
structure PageOut (α : Type) where
  items : List α
  total : Nat
  page : Nat
  per_page : Nat
  total_pages : Nat
deriving DecidableEq

/-- `integrations::EventsQueryParams` (defaults already applied by serde). -/
structure EventsQueryParams where
  page : Nat
  per_page : Nat
  session_id : Option Str
  event_type : Option Str
  since : Option UtcTime
  untilTime : Option UtcTime

/-- `integrations::SessionsQueryParams`. -/
structure SessionsQueryParams where
  page : Nat
  per_page : Nat
  agent_type : Option Str
  status : Option Str
  project : Option Str
  active_only : Bool

/-- `Display for AgentType` (models.rs lines 19-30). -/
def agentTypeDisplay : AgentType → Str
  | .claudeCode => "claude_code".data
  | .cursor => "cursor".data
  | .aider => "aider".data
  | .geminiCli => "gemini_cli".data
  | .openaiCodex => "openai_codex".data
  | .custom => "custom".data

/-- `Display for SessionStatus` (models.rs lines 43-53). -/
def statusDisplay : SessionStatus → Str
  | .active => "active".data
  | .idle => "idle".data
  | .completed => "completed".data
  | .crashed => "crashed".data
  | .unknown => "unknown".data

/-- The filter chain of `list_events_handler`
(integrations.rs lines 660-675). -/
def eventsFilter (p : EventsQueryParams) (events : List SessionEvent) :
    List SessionEvent :=
  ((((events.filter (fun e => match p.session_id with
      | some i => decide (e.session_id = i)
      | none => true)).filter (fun e => match p.event_type with
      | some t => decide (toLowerStr (eventTypeDebug e.event_type)
          = toLowerStr t)
      | none => true)).filter (fun e => match p.since with
      | some s => decide (s.nanos ≤ e.timestamp.nanos)
      | none => true)).filter (fun e => match p.untilTime with
      | some u => decide (e.timestamp.nanos ≤ u.nanos)
      | none => true))

/-- The filter chain of `list_sessions_handler`
(integrations.rs lines 532-542). -/
def sessionsFilter (p : SessionsQueryParams) (sessions : List Session) :
    List Session :=
  ((sessions.filter (fun s => match p.agent_type with
      | some t => decide (agentTypeDisplay s.agent_type = t)
      | none => true)).filter (fun s => match p.status with
      | some st => decide (statusDisplay s.status = st)
      | none => true)).filter (fun s => match p.project with
      | some pr => containsSub s.project_path pr
      | none => true)

/-- Assembling the `PaginatedResponse` from the pagination triple. -/
def mkPageOut {α : Type} (page per_page : Nat) (r : List α × Nat × Nat) :
    PageOut α :=
  { items := r.1
    total := r.2.1
    page := page
    per_page := per_page
    total_pages := r.2.2 }

/-- `list_events_handler` (integrations.rs lines 651-703) on an
already-fetched event list: filter, then paginate. -/
def listEventsHandler (p : EventsQueryParams) (fetched : List SessionEvent) :
    Option (PageOut SessionEvent) :=
  (paginate (eventsFilter p fetched) p.page p.per_page).map
    (mkPageOut p.page p.per_page)

/-- `list_sessions_handler` (integrations.rs lines 519-570) on an
already-fetched session list: filter, then paginate. -/
def listSessionsHandler (p : SessionsQueryParams) (fetched : List Session) :
    Option (PageOut Session) :=
  (paginate (sessionsFilter p fetched) p.page p.per_page).map
    (mkPageOut p.page p.per_page)

/-- `get_session_events_handler` (integrations.rs lines 591-624): no filter,
pagination over the session's fetched events. -/
def getSessionEventsHandler (p : EventsQueryParams)
    (events : List SessionEvent) : Option (PageOut SessionEvent) :=
  (paginate events p.page p.per_page).map (mkPageOut p.page p.per_page)

/-- Helper: with `per_page ≥ 1` and `page ≥ 1`, pagination succeeds and is
the literal skip/take slice. -/
theorem paginate_some {α : Type} (l : List α) (page pp : Nat) (hpp : 1 ≤ pp)
    (hpage : 1 ≤ page) :
    paginate l page pp
      = some ((l.drop ((page - 1) * pp)).take pp, l.length,
          (l.length + pp - 1) / pp) := by
  have h1 : 1 ≤ l.length + pp := by omega
  have h2 : ¬ pp = 0 := by omega
  simp [paginate, checkedSub, h1, h2, hpage]

/-- Helper: with `per_page = 0` pagination panics. -/
theorem paginate_zero {α : Type} (l : List α) (page : Nat) :
    paginate l page 0 = none := by
  by_cases hl : l.length = 0
  · simp [paginate, checkedSub, hl]
  · have h1 : 1 ≤ l.length := by omega
    simp [paginate, checkedSub, h1]

/-- Helper: the consecutive `per_page`-sized slices of a list, one per page,
concatenate back to the list. -/
theorem chunks_join {α : Type} (k : Nat) (hk : 1 ≤ k) :
    ∀ (n : Nat) (l : List α), l.length ≤ n →
      ((List.range ((l.length + k - 1) / k)).map
        (fun i => (l.drop (i * k)).take k)).flatten = l := by
  intro n
  induction n with
  | zero =>
    intro l hl
    have h0 : l = [] := List.length_eq_zero.mp (by omega)
    subst h0
    simp [Nat.div_eq_of_lt (show 0 + k - 1 < k by omega)]
  | succ m ih =>
    intro l hl
    by_cases h0 : l = []
    · subst h0
      simp [Nat.div_eq_of_lt (show 0 + k - 1 < k by omega)]
    · have hlen : 0 < l.length := List.length_pos.mpr h0
      have hdrop : (l.drop k).length ≤ m := by
        rw [List.length_drop]; omega
      have harith : (l.length + k - 1) / k
          = ((l.drop k).length + k - 1) / k + 1 := by
        rw [List.length_drop]
        rcases Nat.le_total l.length k with hle | hge
        · have h1 : l.length - k = 0 := by omega
          rw [h1]
          rw [Nat.div_eq_of_lt (show 0 + k - 1 < k by omega)]
          have h2 : l.length + k - 1 = (l.length - 1) + k := by omega
          rw [h2, Nat.add_div_right _ (by omega)]
          rw [Nat.div_eq_of_lt (by omega)]
        · have h2 : l.length + k - 1 = (l.length - k + k - 1) + k := by omega
          rw [h2, Nat.add_div_right _ (by omega)]
      rw [harith, List.range_succ_eq_map, List.map_cons, List.flatten_cons]
      simp only [Nat.zero_mul, List.drop_zero]
      rw [List.map_map]
      have hfun : ((fun i => (l.drop (i * k)).take k) ∘ Nat.succ)
          = (fun i => ((l.drop k).drop (i * k)).take k) := by
        funext i
        simp only [Function.comp_apply, List.drop_drop]
        rw [Nat.succ_mul, Nat.add_comm]
      rw [hfun, ih (l.drop k) hdrop, List.take_append_drop]

/-- Helper: the page sizes sum to the total. -/
theorem chunks_sum {α : Type} (k : Nat) (hk : 1 ≤ k) (l : List α) :
    ((List.range ((l.length + k - 1) / k)).map
      (fun i => ((l.drop (i * k)).take k).length)).sum = l.length := by
  have h := congrArg List.length (chunks_join k hk l.length l le_rfl)
  rw [List.length_flatten, List.map_map] at h
  exact h

/-- Helper: the handlers' `(total + per_page - 1) / per_page` is the ceiling
of `total / per_page`. -/
theorem totalPages_eq_ceil (n k : Nat) (hk : 1 ≤ k) :
    (n + k - 1) / k = ⌈(n : ℚ) / (k : ℚ)⌉₊ := by
  rcases Nat.eq_zero_or_pos n with h0 | hpos
  · subst h0
    rw [Nat.div_eq_of_lt (show 0 + k - 1 < k by omega)]
    simp
  · have hk0 : 0 < k := hk
    have hkq : (0 : ℚ) < (k : ℚ) := by exact_mod_cast hk0
    set m := (n + k - 1) / k with hm
    have hm1 : 1 ≤ m := (Nat.one_le_div_iff hk0).mpr (by omega)
    have hub : m * k ≤ n + k - 1 := Nat.div_mul_le_self _ _
    have hlb : n + k - 1 < (m + 1) * k :=
      (Nat.div_lt_iff_lt_mul hk0).mp (Nat.lt_succ_self m)
    rw [Nat.succ_mul] at hlb
    have hle : n ≤ m * k := by
      set p := m * k
      omega
    have hlt : (m - 1) * k < n := by
      rw [tsub_mul, one_mul]
      set p := m * k
      omega
    symm
    rw [Nat.ceil_eq_iff (by omega)]
    constructor
    · rw [lt_div_iff₀ hkq]
      calc ((m - 1 : Nat) : ℚ) * (k : ℚ) = (((m - 1) * k : Nat) : ℚ) := by
            push_cast
            ring
        _ < (n : ℚ) := by exact_mod_cast hlt
    · rw [div_le_iff₀ hkq]
      exact_mod_cast hle

/-- C6. Pagination law: for the v1 list handlers and any `per_page ≥ 1`,
pagination is applied to the filtered set; every page `≥ 1` is the
consecutive `skip((page-1)·per_page).take(per_page)` slice of the filtered
set, the slices concatenate back to the filtered set (so they are disjoint
and their item counts sum to `total`), and `total_pages` equals
`ceil(total / per_page)`. -/
theorem c6_pagination_law :
    (∀ (p : EventsQueryParams) (fetched : List SessionEvent),
      1 ≤ p.per_page →
      (∀ page, 1 ≤ page →
        listEventsHandler { p with page := page } fetched
          = some (mkPageOut page p.per_page
              (((eventsFilter p fetched).drop ((page - 1) * p.per_page)).take
                  p.per_page,
                (eventsFilter p fetched).length,
                ((eventsFilter p fetched).length + p.per_page - 1)
                  / p.per_page)))
      ∧ ((List.range (((eventsFilter p fetched).length + p.per_page - 1)
            / p.per_page)).map
          (fun i => ((eventsFilter p fetched).drop (i * p.per_page)).take
            p.per_page)).flatten = eventsFilter p fetched
      ∧ ((List.range (((eventsFilter p fetched).length + p.per_page - 1)
            / p.per_page)).map
          (fun i => (((eventsFilter p fetched).drop (i * p.per_page)).take
            p.per_page).length)).sum = (eventsFilter p fetched).length
      ∧ ((eventsFilter p fetched).length + p.per_page - 1) / p.per_page
          = ⌈((eventsFilter p fetched).length : ℚ) / (p.per_page : ℚ)⌉₊)
    ∧ (∀ (p : SessionsQueryParams) (fetched : List Session),
      1 ≤ p.per_page →
      (∀ page, 1 ≤ page →
        listSessionsHandler { p with page := page } fetched
          = some (mkPageOut page p.per_page
              (((sessionsFilter p fetched).drop ((page - 1) * p.per_page)).take
                  p.per_page,
                (sessionsFilter p fetched).length,
                ((sessionsFilter p fetched).length + p.per_page - 1)
                  / p.per_page)))
      ∧ ((List.range (((sessionsFilter p fetched).length + p.per_page - 1)
            / p.per_page)).map
          (fun i => ((sessionsFilter p fetched).drop (i * p.per_page)).take
            p.per_page)).flatten = sessionsFilter p fetched
      ∧ ((List.range (((sessionsFilter p fetched).length + p.per_page - 1)
            / p.per_page)).map
          (fun i => (((sessionsFilter p fetched).drop (i * p.per_page)).take
            p.per_page).length)).sum = (sessionsFilter p fetched).length
      ∧ ((sessionsFilter p fetched).length + p.per_page - 1) / p.per_page
          = ⌈((sessionsFilter p fetched).length : ℚ) / (p.per_page : ℚ)⌉₊) := by
  constructor
  · intro p fetched hpp
    refine ⟨?_, chunks_join p.per_page hpp _ _ le_rfl,
      chunks_sum p.per_page hpp _, totalPages_eq_ceil _ _ hpp⟩
    intro page hpage
    have hfe : eventsFilter { p with page := page } fetched
        = eventsFilter p fetched := rfl
    show (paginate (eventsFilter { p with page := page } fetched) page
        p.per_page).map (mkPageOut page p.per_page) = _
    rw [hfe, paginate_some _ _ _ hpp hpage]
    rfl
  · intro p fetched hpp
    refine ⟨?_, chunks_join p.per_page hpp _ _ le_rfl,
      chunks_sum p.per_page hpp _, totalPages_eq_ceil _ _ hpp⟩
    intro page hpage
    have hfe : sessionsFilter { p with page := page } fetched
        = sessionsFilter p fetched := rfl
    show (paginate (sessionsFilter { p with page := page } fetched) page
        p.per_page).map (mkPageOut page p.per_page) = _
    rw [hfe, paginate_some _ _ _ hpp hpage]
    rfl

/-- Concrete query parameters for the pagination witnesses. -/
def c6Params : EventsQueryParams :=
  { page := 1, per_page := 2, session_id := none, event_type := none,
    since := none, untilTime := none }

/-- Three concrete fetched events for the pagination witnesses. -/
def c6Events : List SessionEvent :=
  [c4Evt "a", c4Evt "b", c4Evt "c"]

/-- Witness for C6 at page 2 of three events with per_page 2. -/
theorem c6_pagination_law_witness :
    listEventsHandler { c6Params with page := 2 } c6Events
      = some (mkPageOut 2 c6Params.per_page
          (((eventsFilter c6Params c6Events).drop
              ((2 - 1) * c6Params.per_page)).take c6Params.per_page,
            (eventsFilter c6Params c6Events).length,
            ((eventsFilter c6Params c6Events).length + c6Params.per_page - 1)
              / c6Params.per_page)) :=
  (c6_pagination_law.1 c6Params c6Events (by decide)).1 2 (by decide)

/-- C9. Implicit safety of the pagination arithmetic: with `per_page = 0`
the shared `(total + per_page - 1) / per_page` computation panics (division
by zero — modelled as `none`) in all three v1 pagination handlers, so the
handlers are total only when `per_page ≥ 1`; with `per_page ≥ 1` and
`page ≥ 1` they return a response. -/
theorem c9_per_page_zero_division_panic :
    (∀ (p : EventsQueryParams) (fetched : List SessionEvent),
      p.per_page = 0 → listEventsHandler p fetched = none)
    ∧ (∀ (p : SessionsQueryParams) (fetched : List Session),
      p.per_page = 0 → listSessionsHandler p fetched = none)
    ∧ (∀ (p : EventsQueryParams) (events : List SessionEvent),
      p.per_page = 0 → getSessionEventsHandler p events = none)
    ∧ (∀ (p : EventsQueryParams) (fetched : List SessionEvent),
      1 ≤ p.per_page → 1 ≤ p.page →
      (listEventsHandler p fetched).isSome = true)
    ∧ (∀ (p : SessionsQueryParams) (fetched : List Session),
      1 ≤ p.per_page → 1 ≤ p.page →
      (listSessionsHandler p fetched).isSome = true)
    ∧ (∀ (p : EventsQueryParams) (events : List SessionEvent),
      1 ≤ p.per_page → 1 ≤ p.page →
      (getSessionEventsHandler p events).isSome = true) := by
  refine ⟨?_, ?_, ?_, ?_, ?_, ?_⟩
  · intro p fetched h
    unfold listEventsHandler
    rw [h, paginate_zero]
    rfl
  · intro p fetched h
    unfold listSessionsHandler
    rw [h, paginate_zero]
    rfl
  · intro p events h
    unfold getSessionEventsHandler
    rw [h, paginate_zero]
    rfl
  · intro p fetched h1 h2
    unfold listEventsHandler
    rw [paginate_some _ _ _ h1 h2]
    rfl
  · intro p fetched h1 h2
    unfold listSessionsHandler
    rw [paginate_some _ _ _ h1 h2]
    rfl
  · intro p events h1 h2
    unfold getSessionEventsHandler
    rw [paginate_some _ _ _ h1 h2]
    rfl

/-- Witness for C9: `per_page = 0` panics, `per_page = 2` succeeds. -/
theorem c9_per_page_zero_division_panic_witness :
    listEventsHandler { c6Params with per_page := 0 } c6Events = none
    ∧ (listEventsHandler c6Params c6Events).isSome = true :=
  ⟨c9_per_page_zero_division_panic.1 { c6Params with per_page := 0 }
      c6Events rfl,
   c9_per_page_zero_division_panic.2.2.2.1 c6Params c6Events (by decide)
      (by decide)⟩

/-! ## CSV export (src/rust-daemon/src/integrations.rs lines 719-741)

The `chrono` RFC-3339 timestamp rendering is external library code and is
passed in as a parameter (`tsRender`); the claims only need that it emits no
newline, which RFC-3339 text never contains. -/

/-- The content preview of one CSV row of `export_handler`
(integrations.rs lines 723-725, 731): first line of the content, commas
replaced by ';', then newlines by spaces, truncated to 100 characters by the
`format!` call. -/
def exportPreview (content : Option Str) : Str :=
  (match content with
   | some c => replaceChar '\n' ' ' (replaceChar ',' ';' (firstLine c))
   | none => []).take 100

/-- The row body of the `format!("{},{},{:?},{}\n", …)` call. -/
def csvRowBody (tsRender : UtcTime → Str) (e : SessionEvent) : Str :=
  tsRender e.timestamp ++ ",".data ++ e.session_id ++ ",".data
    ++ eventTypeDebug e.event_type ++ ",".data ++ exportPreview e.content

/-- One CSV record, newline-terminated. -/
def csvRow (tsRender : UtcTime → Str) (e : SessionEvent) : Str :=
  csvRowBody tsRender e ++ "\n".data

/-- The full CSV document of `export_handler`: header plus one record per
event, accumulated by `push_str`. -/
def exportCsv (tsRender : UtcTime → Str) (events : List SessionEvent) : Str :=
  "timestamp,session_id,event_type,content_preview\n".data
    ++ (events.map (csvRow tsRender)).flatten

/-- C7 counterexample: the export preview is built from the FIRST LINE of
the content only, so the event content "a, b\nc" yields the row preview
"a; b" and not the claimed "a; b c" — the newline-to-space replacement is
dead code after `.lines().next()`. -/
theorem c7_export_csv_counterexample :
    exportPreview (some "a, b\nc".data) = "a; b".data
    ∧ exportPreview (some "a, b\nc".data) ≠ "a; b c".data := by
  constructor <;> decide

/-- Helper: `splitOnNl` never returns the empty list. -/
theorem splitOnNl_ne_nil (s : Str) : splitOnNl s ≠ [] := by
  cases s with
  | nil => simp [splitOnNl]
  | cons c rest =>
    simp only [splitOnNl]
    split
    · simp
    · split <;> simp

/-- Helper: no segment of `splitOnNl` contains a newline. -/
theorem mem_splitOnNl_no_nl (s : Str) : ∀ l ∈ splitOnNl s, '\n' ∉ l := by
  induction s with
  | nil =>
    intro l hl
    simp only [splitOnNl, List.mem_singleton] at hl
    subst hl
    simp
  | cons c rest ih =>
    intro l hl
    simp only [splitOnNl] at hl
    by_cases hc : c = '\n'
    · rw [if_pos hc] at hl
      rcases List.mem_cons.mp hl with h | h
      · subst h; simp
      · exact ih l h
    · rw [if_neg hc] at hl
      cases hr : splitOnNl rest with
      | nil => exact absurd hr (splitOnNl_ne_nil rest)
      | cons hd tl =>
        rw [hr] at hl
        rcases List.mem_cons.mp hl with h1 | h1
        · subst h1
          intro hmem
          rcases List.mem_cons.mp hmem with h2 | h2
          · exact hc h2.symm
          · exact ih hd (by rw [hr]; exact List.mem_cons_self hd tl) h2
        · exact ih l (by rw [hr]; exact List.mem_cons_of_mem hd h1)

/-- Helper: the first line of any content contains no newline. -/
theorem firstLine_no_nl (s : Str) : '\n' ∉ firstLine s := by
  unfold firstLine rustLines
  have hsub : ∀ l, l ∈ (if (splitOnNl s).getLast? = some [] then
      (splitOnNl s).dropLast else splitOnNl s) → '\n' ∉ l := by
    intro l hl
    apply mem_splitOnNl_no_nl s
    split at hl
    · exact List.dropLast_subset _ hl
    · exact hl
  cases hps : (if (splitOnNl s).getLast? = some [] then
      (splitOnNl s).dropLast else splitOnNl s) with
  | nil => simp [hps]
  | cons a t =>
    simp only [hps, List.map_cons, List.headD_cons]
    have ha : '\n' ∉ a := hsub a (by rw [hps]; exact List.mem_cons_self a t)
    unfold stripCR
    split
    · exact fun hm => ha (List.dropLast_subset a hm)
    · exact ha

/-- Helper: replacing a character by a non-newline character introduces no
newline. -/
theorem no_nl_replaceChar (p r : Char) (hr : r ≠ '\n') (l : Str)
    (h : '\n' ∉ l) : '\n' ∉ replaceChar p r l := by
  unfold replaceChar
  intro hmem
  rcases List.mem_map.mp hmem with ⟨c, hc, he⟩
  by_cases hcp : c = p
  · rw [if_pos hcp] at he
    exact hr he
  · rw [if_neg hcp] at he
    rw [he] at hc
    exact h hc

/-- Helper: replacing an absent character is the identity. -/
theorem replaceChar_no_occurrence (p r : Char) (l : Str) (h : p ∉ l) :
    replaceChar p r l = l := by
  unfold replaceChar
  conv_rhs => rw [← List.map_id l]
  refine List.map_congr_left fun c hc => ?_
  have hcp : ¬ c = p := fun he => h (by rw [he] at hc; exact hc)
  rw [if_neg hcp]
  rfl

/-- Helper: the dead newline replacement dropped, the export preview is the
first line with commas replaced, truncated at 100 characters. -/
theorem exportPreview_eq_amended (c : Str) :
    exportPreview (some c) = (replaceChar ',' ';' (firstLine c)).take 100 := by
  show (replaceChar '\n' ' ' (replaceChar ',' ';' (firstLine c))).take 100
    = (replaceChar ',' ';' (firstLine c)).take 100
  rw [replaceChar_no_occurrence '\n' ' ' _
    (no_nl_replaceChar ',' ';' (by decide) _ (firstLine_no_nl c))]

/-- Helper: splitting at an explicit newline after a newline-free prefix. -/
theorem splitOnNl_append_nl (a rest : Str) (h : '\n' ∉ a) :
    splitOnNl (a ++ '\n' :: rest) = a :: splitOnNl rest := by
  induction a with
  | nil => simp [splitOnNl]
  | cons c a ih =>
    have hc : c ≠ '\n' := fun he => h (he ▸ List.mem_cons_self c a)
    have ha : '\n' ∉ a := fun hm => h (List.mem_cons_of_mem c hm)
    simp only [List.cons_append, splitOnNl, if_neg hc, List.append_eq]
    rw [ih ha]

/-- Helper: the debug rendering of an event type contains no newline. -/
theorem eventTypeDebug_no_nl (k : EventType) : '\n' ∉ eventTypeDebug k := by
  cases k <;> decide

/-- Helper: a CSV row body contains no newline. -/
theorem csvRowBody_no_nl (tsRender : UtcTime → Str) (e : SessionEvent)
    (hts : '\n' ∉ tsRender e.timestamp) (hsid : '\n' ∉ e.session_id) :
    '\n' ∉ csvRowBody tsRender e := by
  unfold csvRowBody
  intro hmem
  simp only [List.mem_append] at hmem
  rcases hmem with ((((((h | h) | h) | h) | h) | h) | h)
  · exact hts h
  · simp at h
  · exact hsid h
  · simp at h
  · exact eventTypeDebug_no_nl e.event_type h
  · simp at h
  · revert h
    unfold exportPreview
    intro h
    have h' := List.take_subset 100 _ h
    cases hc : e.content with
    | none => rw [hc] at h'; simp at h'
    | some c =>
      rw [hc] at h'
      exact no_nl_replaceChar '\n' ' ' (by decide) _
        (no_nl_replaceChar ',' ';' (by decide) _ (firstLine_no_nl c)) h'

/-- Helper: the export preview as a function of the optional content. -/
theorem exportPreview_getD (o : Option Str) :
    exportPreview o
      = (replaceChar ',' ';' (firstLine (o.getD []))).take 100 := by
  cases o with
  | none => rfl
  | some c => exact exportPreview_eq_amended c

/-- Helper: the record block of the CSV splits into one segment per event. -/
theorem csvRows_split (tsRender : UtcTime → Str) :
    ∀ (events : List SessionEvent), (∀ t, '\n' ∉ tsRender t) →
    (∀ e ∈ events, '\n' ∉ e.session_id) →
    splitOnNl ((events.map (csvRow tsRender)).flatten)
      = events.map (fun e =>
          tsRender e.timestamp ++ ",".data ++ e.session_id ++ ",".data
            ++ eventTypeDebug e.event_type ++ ",".data
            ++ (replaceChar ',' ';' (firstLine (e.content.getD []))).take 100)
        ++ [[]] := by
  intro events hts
  induction events with
  | nil =>
    intro _
    simp [splitOnNl]
  | cons e rest ih =>
    intro hsid
    simp only [List.map_cons, List.flatten_cons]
    have hrowbody : '\n' ∉ csvRowBody tsRender e :=
      csvRowBody_no_nl tsRender e (hts e.timestamp)
        (hsid e (List.mem_cons_self e rest))
    have hsplit : csvRow tsRender e ++ (rest.map (csvRow tsRender)).flatten
        = csvRowBody tsRender e
          ++ '\n' :: (rest.map (csvRow tsRender)).flatten := by
      unfold csvRow
      rw [List.append_assoc]
      rfl
    rw [hsplit, splitOnNl_append_nl _ _ hrowbody,
      ih (fun x hx => hsid x (List.mem_cons_of_mem e hx)), List.cons_append]
    congr 1
    unfold csvRowBody
    rw [exportPreview_getD]

/-- C7 (amended). CSV export rows: the document is the header line followed
by exactly one newline-terminated record per event (provided the RFC-3339
timestamps and session ids are newline-free, which they are), whose
content_preview field is the FIRST LINE of the event content with each comma
replaced by ';', truncated at 100 characters; the newline-to-space
replacement of the source is dead code after `.lines().next()`. -/
theorem c7_export_csv_rows (tsRender : UtcTime → Str)
    (events : List SessionEvent)
    (hts : ∀ t, '\n' ∉ tsRender t)
    (hsid : ∀ e ∈ events, '\n' ∉ e.session_id) :
    splitOnNl (exportCsv tsRender events)
      = ("timestamp,session_id,event_type,content_preview".data
          :: events.map (fun e =>
            tsRender e.timestamp ++ ",".data ++ e.session_id ++ ",".data
              ++ eventTypeDebug e.event_type ++ ",".data
              ++ (replaceChar ',' ';' (firstLine (e.content.getD []))).take
                100))
        ++ [[]] := by
  unfold exportCsv
  have hh : ("timestamp,session_id,event_type,content_preview\n".data : Str)
      = "timestamp,session_id,event_type,content_preview".data
        ++ '\n' :: [] := by decide
  rw [hh, List.append_assoc, List.singleton_append,
    splitOnNl_append_nl _ _ (by decide),
    csvRows_split tsRender events hts hsid, List.cons_append]

/-- The event of the spec's CSV scenario, content "a, b\nc". -/
def c7Event : SessionEvent := c4Evt "a, b\nc"

/-- Witness for C7 (amended) at a one-event export with a constant
timestamp rendering. -/
theorem c7_export_csv_rows_witness :
    splitOnNl (exportCsv (fun _ => "T".data) [c7Event])
      = ("timestamp,session_id,event_type,content_preview".data
          :: [c7Event].map (fun e =>
            (fun _ : UtcTime => "T".data) e.timestamp ++ ",".data
              ++ e.session_id ++ ",".data ++ eventTypeDebug e.event_type
              ++ ",".data
              ++ (replaceChar ',' ';' (firstLine (e.content.getD []))).take
                100))
        ++ [[]] :=
  c7_export_csv_rows (fun _ => "T".data) [c7Event]
    (fun _ => (by decide : '\n' ∉ "T".data)) (by decide)

/-! ## EventSummary preview (src/rust-daemon/src/integrations.rs 132-155) -/

/-- UTF-8 byte length of one character. -/
def charUtf8Len (c : Char) : Nat := (charUtf8Bytes c).length

/-- Rust byte slice `&s[..n]`: `none` models the panic when `n` overruns the
string or does not fall on a character boundary. -/
def byteTake : Str → Nat → Option Str
  | _, 0 => some []
  | [], _ + 1 => none
  | c :: t, n + 1 =>
    if charUtf8Len c ≤ n + 1 then
      (byteTake t (n + 1 - charUtf8Len c)).map (fun r => c :: r)
    else none

/-- The character-boundary byte offsets of a string. -/
def byteOffsets : Str → List Nat
  | [] => [0]
  | c :: t => 0 :: (byteOffsets t).map (· + charUtf8Len c)

/-- The preview of `From<&SessionEvent> for EventSummary`
(integrations.rs lines 134-143): the first content line, byte-sliced at 100
(`&first_line[..100]`, with `len()` the byte length) plus "..." when longer
than 100 bytes. -/
def eventSummaryPreview (content : Option Str) : Option Str :=
  match content with
  | none => some []
  | some c =>
    let fl := firstLine c
    if utf8Len fl > 100 then
      (byteTake fl 100).map (fun pre => pre ++ "...".data)
    else some fl

/-- Helper: every character encodes to at least one byte. -/
theorem charUtf8Len_pos (c : Char) : 1 ≤ charUtf8Len c := by
  simp only [charUtf8Len, charUtf8Bytes]
  split_ifs <;> simp

/-- Helper: the byte slice succeeds exactly at character boundaries. -/
theorem byteTake_isSome_iff (s : Str) :
    ∀ n, (byteTake s n).isSome = true ↔ n ∈ byteOffsets s := by
  induction s with
  | nil =>
    intro n
    cases n with
    | zero => simp [byteTake, byteOffsets]
    | succ m => simp [byteTake, byteOffsets]
  | cons c t ih =>
    intro n
    cases n with
    | zero => simp [byteTake, byteOffsets]
    | succ m =>
      simp only [byteTake, byteOffsets]
      by_cases hk : charUtf8Len c ≤ m + 1
      · rw [if_pos hk]
        have hmap : ((byteTake t (m + 1 - charUtf8Len c)).map
            (fun r => c :: r)).isSome
            = (byteTake t (m + 1 - charUtf8Len c)).isSome := by
          cases byteTake t (m + 1 - charUtf8Len c) <;> rfl
        rw [hmap, ih]
        constructor
        · intro hmem
          refine List.mem_cons.mpr (Or.inr (List.mem_map.mpr
            ⟨m + 1 - charUtf8Len c, hmem, ?_⟩))
          omega
        · intro hmem
          rcases List.mem_cons.mp hmem with h0 | hx
          · omega
          · rcases List.mem_map.mp hx with ⟨x, hxmem, hxe⟩
            have : x = m + 1 - charUtf8Len c := by omega
            rwa [this] at hxmem
      · rw [if_neg hk]
        simp only [Option.isSome_none, Bool.false_eq_true, false_iff]
        intro hmem
        rcases List.mem_cons.mp hmem with h0 | hx
        · omega
        · rcases List.mem_map.mp hx with ⟨x, _, hxe⟩
          omega

set_option maxRecDepth 4096 in
/-- C10. EventSummary preview byte-slice safety: when the first content line
is longer than 100 bytes the preview byte-slices at index 100, which panics
unless byte 100 is a character boundary — witnessed concretely by 99 ASCII
characters followed by a two-byte character; summarisation succeeds exactly
when the first line fits in 100 bytes or offset 100 is a boundary. -/
theorem c10_event_summary_preview_panic :
    (eventSummaryPreview (some (List.replicate 99 'a' ++ [Char.ofNat 233]))
      = none)
    ∧ (∀ c : Str, utf8Len (firstLine c) > 100 →
      ((eventSummaryPreview (some c)).isSome = true
        ↔ 100 ∈ byteOffsets (firstLine c)))
    ∧ (∀ c : Str, utf8Len (firstLine c) ≤ 100 →
      (eventSummaryPreview (some c)).isSome = true) := by
  refine ⟨by decide, ?_, ?_⟩
  · intro c h
    simp only [eventSummaryPreview]
    rw [if_pos h]
    have hmap : ((byteTake (firstLine c) 100).map
        (fun pre => pre ++ "...".data)).isSome
        = (byteTake (firstLine c) 100).isSome := by
      cases byteTake (firstLine c) 100 <;> rfl
    rw [hmap]
    exact byteTake_isSome_iff (firstLine c) 100
  · intro c h
    simp only [eventSummaryPreview]
    rw [if_neg (by omega)]
    rfl

/-- Witness for C10: a short content succeeds; the 101-byte first line with
a straddling two-byte character satisfies the boundary characterisation. -/
theorem c10_event_summary_preview_panic_witness :
    (eventSummaryPreview (some "hi".data)).isSome = true
    ∧ ((eventSummaryPreview (some (List.replicate 99 'a'
          ++ [Char.ofNat 233]))).isSome = true
        ↔ 100 ∈ byteOffsets (firstLine (List.replicate 99 'a'
          ++ [Char.ofNat 233]))) :=
  ⟨c10_event_summary_preview_panic.2.2 "hi".data (by decide),
   c10_event_summary_preview_panic.2.1 _ (by decide)⟩
